import Mathlib

/-!
Cave generator (`src/cpp/cavetown.cpp`): embedding and verified properties

The class `CaveGenerator` owns `width`, `height`, a `std::vector<std::vector<int>>`
grid and a `std::mt19937`.  The embedding keeps the same four fields.

* `int` is `Int`: signed overflow is undefined in C++ and no wrap-around is modelled; on
  objects kept by the class (cells `0`/`1`, indices within a few units of the grid) every
  sum and product stays far inside the `int` range.  The public method
  `countNeighborWalls` takes arbitrary `int` arguments, so it also has a 32-bit embedding,
  `countNeighborWallsInt`, in which an overflow is `none`.
* `std::vector<std::vector<int>>` is `List (List Int)`; an unchecked `grid[y][x]`
  outside the storage is undefined behaviour and is modelled as `none`.
* `float` values are rationals: every finite float is one and `<` on finite floats is the
  order of the rationals.
* The standard-library random machinery is a parameter, `RandomSource`.
* `for (int i = lo; i < hi; i++)` is `forRange lo hi`.
-/

namespace Cave

/-! ## Loops -/

/-- Runs `body i`, `body (i+1)`, ... for `n` rounds, stopping at the first failure. -/
def forLoop {σ : Type} (body : Int → σ → Option σ) : Nat → Int → σ → Option σ
  | 0, _, s => some s
  | n + 1, i, s =>
    match body i s with
    | none => none
    | some s' => forLoop body n (i + 1) s'

/-- Models `for (int i = lo; i < hi; i++) body`. -/
def forRange {σ : Type} (lo hi : Int) (body : Int → σ → Option σ) (s : σ) : Option σ :=
  forLoop body (hi - lo).toNat lo s

/-! ## Grid storage -/

/-- Unchecked read `grid[y][x]`; `none` when the index leaves the storage. -/
def readCell (grid : List (List Int)) (x y : Int) : Option Int :=
  if x < 0 ∨ y < 0 then none
  else
    match grid[y.toNat]? with
    | none => none
    | some row => row[x.toNat]?

/-- Unchecked write `grid[y][x] = v`; `none` when the index leaves the storage. -/
def writeCell (grid : List (List Int)) (x y : Int) (v : Int) : Option (List (List Int)) :=
  if x < 0 ∨ y < 0 then none
  else
    match grid[y.toNat]? with
    | none => none
    | some row =>
      if x.toNat < row.length then some (grid.set y.toNat (row.set x.toNat v)) else none

/-- A storage of `h` rows of `w` cells each. -/
def Shape (w h : Int) (grid : List (List Int)) : Prop :=
  0 ≤ w ∧ 0 ≤ h ∧ grid.length = h.toNat ∧ ∀ row ∈ grid, row.length = w.toNat

instance (w h : Int) (grid : List (List Int)) : Decidable (Shape w h grid) := by
  unfold Shape; infer_instance

/-! ## Random source -/

/-- The random machinery used by the class: `std::mt19937 rng(seed)`, a call of
`std::uniform_real_distribution<float>(0.0f, 1.0f)` and a call of
`std::uniform_int_distribution<int>(a, b)`, each returning the drawn value and the
generator state after the draw. -/
structure RandomSource (R : Type) where
  seed : Nat → R
  uniformReal : R → ℚ × R
  uniformInt : Int → Int → R → Int × R

/-- Contract of the real distribution: draws lie in `[0, 1)`. -/
def RandomSource.RealInUnit {R : Type} (rs : RandomSource R) : Prop :=
  ∀ r, 0 ≤ (rs.uniformReal r).1 ∧ (rs.uniformReal r).1 < 1

/-- Contract of the integer distribution: draws from `(a, b)` with `a ≤ b` lie in `[a, b]`. -/
def RandomSource.IntInRange {R : Type} (rs : RandomSource R) : Prop :=
  ∀ a b r, a ≤ b → a ≤ (rs.uniformInt a b r).1 ∧ (rs.uniformInt a b r).1 ≤ b

/-- Generator state after one real draw. -/
def RandomSource.skipReal {R : Type} (rs : RandomSource R) (r : R) : R :=
  (rs.uniformReal r).2

/-- The `k`-th real draw (counting from 0) of the stream that starts in state `r`. -/
def RandomSource.realDraw {R : Type} (rs : RandomSource R) (r : R) (k : Nat) : ℚ :=
  (rs.uniformReal (rs.skipReal^[k] r)).1

/-! ## The class -/

/-- State of a `CaveGenerator` object. -/
structure CaveGenerator (R : Type) where
  width : Int
  height : Int
  grid : List (List Int)
  rng : R
  deriving DecidableEq

/-- Class invariant: the storage has `height` rows of `width` cells. -/
def CaveGenerator.WF {R : Type} (g : CaveGenerator R) : Prop :=
  Shape g.width g.height g.grid

instance {R : Type} (g : CaveGenerator R) : Decidable g.WF := by
  unfold CaveGenerator.WF; infer_instance

/-- Constructor `CaveGenerator(w, h, seed)`: `grid.resize(height, std::vector<int>(width, 0))`.
A negative size converts to a `size_t` beyond `max_size()`, so the vector
constructor or `resize` throws; that is `none`. -/
def construct {R : Type} (rs : RandomSource R) (w h : Int) (seed : Nat) :
    Option (CaveGenerator R) :=
  if w < 0 ∨ h < 0 then none
  else some
    { width := w, height := h,
      grid := List.replicate h.toNat (List.replicate w.toNat 0),
      rng := rs.seed seed }

/-- The assignment `grid[y][x] = v` on the object. -/
def CaveGenerator.write {R : Type} (g : CaveGenerator R) (x y v : Int) :
    Option (CaveGenerator R) :=
  match writeCell g.grid x y v with
  | none => none
  | some grid' => some { g with grid := grid' }

/-- Body of the two loops of `initialize` for the cell `(x, y)`. -/
def initCell {R : Type} (rs : RandomSource R) (p : ℚ) (x y : Int) (g : CaveGenerator R) :
    Option (CaveGenerator R) :=
  if x = 0 ∨ x = g.width - 1 ∨ y = 0 ∨ y = g.height - 1 then
    g.write x y 1
  else
    let d := rs.uniformReal g.rng
    CaveGenerator.write { g with rng := d.2 } x y (if d.1 < p then 1 else 0)

/-- Method `initialize(wall_probability)`. -/
def initializeGrid {R : Type} (rs : RandomSource R) (p : ℚ) (g : CaveGenerator R) :
    Option (CaveGenerator R) :=
  forRange 0 g.height (fun y g1 => forRange 0 g1.width (fun x g2 => initCell rs p x y g2) g1) g

/-- Body of the two loops of `countNeighborWalls` for the offset `(dx, dy)`. -/
def countCell {R : Type} (g : CaveGenerator R) (x y dx dy : Int) (count : Int) : Option Int :=
  if dx = 0 ∧ dy = 0 then some count
  else
    let nx := x + dx
    let ny := y + dy
    if nx < 0 ∨ nx ≥ g.width ∨ ny < 0 ∨ ny ≥ g.height then some (count + 1)
    else
      match readCell g.grid nx ny with
      | none => none
      | some v => some (count + v)

/-- Method `countNeighborWalls(x, y, range)` over unbounded integers.  It is the method
itself wherever no `int` operation overflows, in particular for `range = 1` around the cells
of a `0`/`1` grid as `smooth` calls it; `countNeighborWallsInt` below is the method with
32-bit arithmetic. -/
def countNeighborWalls {R : Type} (g : CaveGenerator R) (x y range : Int) : Option Int :=
  forRange (-range) (range + 1)
    (fun dy c1 => forRange (-range) (range + 1) (fun dx c2 => countCell g x y dx dy c2) c1) 0

/-- Body of the two inner loops of `smooth` for the cell `(x, y)`: `g` is the object
(holding the grid of the previous generation), `newGrid` the copy being written. -/
def smoothCell {R : Type} (g : CaveGenerator R) (x y : Int) (newGrid : List (List Int)) :
    Option (List (List Int)) :=
  match countNeighborWalls g x y 1 with
  | none => none
  | some neighbors =>
    if neighbors ≥ 5 then writeCell newGrid x y 1
    else if neighbors ≤ 3 then writeCell newGrid x y 0
    else some newGrid

/-- Body of the outer loop of `smooth`: one generation. -/
def smoothPass {R : Type} (g : CaveGenerator R) : Option (CaveGenerator R) :=
  match forRange 1 (g.height - 1)
      (fun y n1 => forRange 1 (g.width - 1) (fun x n2 => smoothCell g x y n2) n1) g.grid with
  | none => none
  | some newGrid => some { g with grid := newGrid }

/-- Method `smooth(iterations)`. -/
def smooth {R : Type} (iterations : Int) (g : CaveGenerator R) : Option (CaveGenerator R) :=
  forRange 0 iterations (fun _ g1 => smoothPass g1) g

/-- Innermost body of `addObstacles` for the offset `(dx, dy)`. -/
def stampCell {R : Type} (cx cy size dx dy : Int) (g : CaveGenerator R) :
    Option (CaveGenerator R) :=
  let x := cx + dx
  let y := cy + dy
  if x ≥ 0 ∧ x < g.width ∧ y ≥ 0 ∧ y < g.height then
    if dx * dx + dy * dy ≤ size * size then g.write x y 1 else some g
  else some g

/-- The part of the body of `addObstacles` that follows the three draws. -/
def placeObstacle {R : Type} (cx cy size : Int) (g : CaveGenerator R) :
    Option (CaveGenerator R) :=
  match readCell g.grid cx cy with
  | none => none
  | some c =>
    if c = 0 then
      forRange (-size) (size + 1)
        (fun dy g1 => forRange (-size) (size + 1) (fun dx g2 => stampCell cx cy size dx dy g2) g1) g
    else some g

/-- Generator state after the three draws `distX(rng)`, `distY(rng)`, `distSize(rng)`. -/
def skipObstacleDraws {R : Type} (rs : RandomSource R) (w h : Int) (r : R) : R :=
  (rs.uniformInt 1 3 (rs.uniformInt 5 (h - 5) (rs.uniformInt 5 (w - 5) r).2).2).2

/-- Body of the loop of `addObstacles`: three draws, then the stamp. -/
def obstacleStep {R : Type} (rs : RandomSource R) (g : CaveGenerator R) :
    Option (CaveGenerator R) :=
  let dX := rs.uniformInt 5 (g.width - 5) g.rng
  let dY := rs.uniformInt 5 (g.height - 5) dX.2
  let dS := rs.uniformInt 1 3 dY.2
  placeObstacle dX.1 dY.1 dS.1 { g with rng := dS.2 }

/-- Method `addObstacles(num_obstacles)`.  Before the loop the method constructs
`std::uniform_int_distribution<int> distX(5, width-5)`, `distY(5, height-5)` and
`distSize(1, 3)`; constructing a distribution over `(a, b)` with `a > b` is undefined
behaviour, so a width or height below 10 gives `none`, whatever the count. -/
def addObstacles {R : Type} (rs : RandomSource R) (numObstacles : Int) (g : CaveGenerator R) :
    Option (CaveGenerator R) :=
  if 5 ≤ g.width - 5 ∧ 5 ≤ g.height - 5 then
    forRange 0 numObstacles (fun _ g1 => obstacleStep rs g1) g
  else none

/-- Value that one generation of `smooth` leaves in the interior cell `(x, y)`, computed from
the object `g` of the previous generation only. -/
def smoothTarget {R : Type} (g : CaveGenerator R) (x y : Int) : Option Int :=
  match countNeighborWalls g x y 1 with
  | none => none
  | some n => if n ≥ 5 then some 1 else if n ≤ 3 then some 0 else readCell g.grid x y

/-- The literal `0.45f`: the binary32 value nearest to 0.45. -/
def defaultWallProbability : ℚ := 15099494 / 33554432

/-- Method `generate()`. -/
def generate {R : Type} (rs : RandomSource R) (g : CaveGenerator R) : Option (CaveGenerator R) :=
  (initializeGrid rs defaultWallProbability g).bind fun g1 =>
    (smooth 5 g1).bind fun g2 => addObstacles rs 8 g2

/-- Method `get(x, y)`. -/
def get {R : Type} (g : CaveGenerator R) (x y : Int) : Option Int :=
  if x < 0 ∨ x ≥ g.width ∨ y < 0 ∨ y ≥ g.height then some 1
  else readCell g.grid x y

/-- Method `getWidth()`. -/
def getWidth {R : Type} (g : CaveGenerator R) : Int := g.width

/-- Method `getHeight()`. -/
def getHeight {R : Type} (g : CaveGenerator R) : Int := g.height

/-- Method `getGrid()`. -/
def getGrid {R : Type} (g : CaveGenerator R) : List (List Int) := g.grid

/-- The pipeline with explicit parameters: `initialize`, `smooth`, `addObstacles`. -/
def runStages {R : Type} (rs : RandomSource R) (p : ℚ) (iterations obstacleCount : Int)
    (g : CaveGenerator R) : Option (CaveGenerator R) :=
  (initializeGrid rs p g).bind fun g1 =>
    (smooth iterations g1).bind fun g2 => addObstacles rs obstacleCount g2

/-- Number of Wall (`1`) cells of a grid. -/
def wallCount (grid : List (List Int)) : Nat :=
  (grid.map fun row => row.count 1).sum

/-- Every stored cell is `0` or `1`. -/
def Binary (grid : List (List Int)) : Prop :=
  ∀ row ∈ grid, ∀ v ∈ row, v = 0 ∨ v = 1

instance (grid : List (List Int)) : Decidable (Binary grid) := by
  unfold Binary; infer_instance

/-- Cells already rewritten when the loops of `smooth` stand at row `j`, column `i`. -/
def smoothDone (w : Int) (j i x y : Int) : Prop :=
  (1 ≤ y ∧ y < j ∧ 1 ≤ x ∧ x < w - 1) ∨ (y = j ∧ 1 ≤ x ∧ x < i)

/-- Loop invariant of `smooth`: rewritten cells hold their target, the others their old value. -/
def smoothInv {R : Type} (g : CaveGenerator R) (j i : Int) (ng : List (List Int)) : Prop :=
  Shape g.width g.height ng ∧
    (∀ x y, smoothDone g.width j i x y → readCell ng x y = smoothTarget g x y) ∧
    (∀ x y, ¬ smoothDone g.width j i x y → readCell ng x y = readCell g.grid x y)

/-- Position of the interior cell `(x, y)` in the row-major scan of the interior cells. -/
def interiorIndex (w x y : Int) : Nat :=
  (y - 1).toNat * (w - 2).toNat + (x - 1).toNat

/-- Value that `initialize` leaves in the cell `(x, y)` of a `w` by `h` grid when the
generator starts in state `r0`. -/
def initTarget {R : Type} (rs : RandomSource R) (p : ℚ) (r0 : R) (w h x y : Int) : Int :=
  if x = 0 ∨ x = w - 1 ∨ y = 0 ∨ y = h - 1 then 1
  else if rs.realDraw r0 (interiorIndex w x y) < p then 1 else 0

/-- Number of real draws made when the loops of `initialize` stand at row `j`, column `i`. -/
def initDraws (w h j i : Int) : Nat :=
  min (j - 1).toNat (h - 2).toNat * (w - 2).toNat +
    (if 1 ≤ j ∧ j ≤ h - 2 then min (i - 1).toNat (w - 2).toNat else 0)

/-- Cells already written when the loops of `initialize` stand at row `j`, column `i`. -/
def initDone (w j i x y : Int) : Prop :=
  0 ≤ x ∧ x < w ∧ 0 ≤ y ∧ (y < j ∨ (y = j ∧ x < i))

/-- Loop invariant of `initialize`. -/
def initInv {R : Type} (rs : RandomSource R) (p : ℚ) (g0 : CaveGenerator R) (j i : Int)
    (g : CaveGenerator R) : Prop :=
  g.width = g0.width ∧ g.height = g0.height ∧ g.WF ∧
    g.rng = rs.skipReal^[initDraws g0.width g0.height j i] g0.rng ∧
    ∀ x y, initDone g0.width j i x y →
      readCell g.grid x y = some (initTarget rs p g0.rng g0.width g0.height x y)

/-- The disc test of `addObstacles` at the offset `(dx, dy)`. -/
def inDisc (size dx dy : Int) : Prop :=
  dx * dx + dy * dy ≤ size * size

instance (size dx dy : Int) : Decidable (inDisc size dx dy) := by
  unfold inDisc; infer_instance

/-- Cells already stamped when the loops of `addObstacles` stand at offsets `dy = j`, `dx = i`. -/
def stampDone (w h cx cy size j i x y : Int) : Prop :=
  inDisc size (x - cx) (y - cy) ∧
    (0 ≤ x ∧ x < w ∧ 0 ≤ y ∧ y < h ∧ -size ≤ x - cx ∧ x - cx ≤ size ∧ -size ≤ y - cy ∧
      (y - cy < j ∨ (y - cy = j ∧ x - cx < i)))

/-- Loop invariant of the stamp of `addObstacles`. -/
def stampInv {R : Type} (g0 : CaveGenerator R) (cx cy size j i : Int)
    (g : CaveGenerator R) : Prop :=
  g.width = g0.width ∧ g.height = g0.height ∧ g.rng = g0.rng ∧ g.WF ∧
    (∀ x y, stampDone g0.width g0.height cx cy size j i x y → readCell g.grid x y = some 1) ∧
    (∀ x y, ¬ stampDone g0.width g0.height cx cy size j i x y →
      readCell g.grid x y = readCell g0.grid x y)

/-! ## Concrete random sources used by the examples -/

/-- Counter source: real draws are all `0`; integer draws return the lower bound. -/
def lowSource : RandomSource Nat where
  seed := fun s => s
  uniformReal := fun r => (0, r + 1)
  uniformInt := fun a _ r => (a, r + 1)

/-- A 5 by 5 cave whose centre cell is Wall and has exactly four Wall neighbours. -/
def exampleCave : CaveGenerator Nat :=
  ⟨5, 5, [[1, 1, 1, 1, 1], [1, 1, 0, 1, 1], [1, 0, 1, 0, 1], [1, 1, 0, 1, 1], [1, 1, 1, 1, 1]], 0⟩

/-- A 10 by 10 cave of Open cells, as the constructor leaves it. -/
def blankCave : CaveGenerator Nat :=
  ⟨10, 10, List.replicate 10 (List.replicate 10 0), 0⟩

/-- A 10 by 10 cave of Wall cells. -/
def solidCave : CaveGenerator Nat :=
  ⟨10, 10, List.replicate 10 (List.replicate 10 1), 0⟩

/-- Objects the class can hold: built by the constructor, then changed only by `initialize`,
`smooth` and, on grids of at least 10 by 10, `addObstacles`. -/
inductive Reachable {R : Type} (rs : RandomSource R) : CaveGenerator R → Prop
  | fresh (w h : Int) (seed : Nat) (g : CaveGenerator R) :
      construct rs w h seed = some g → Reachable rs g
  | afterInit (p : ℚ) (g g' : CaveGenerator R) :
      Reachable rs g → initializeGrid rs p g = some g' → Reachable rs g'
  | afterSmooth (n : Int) (g g' : CaveGenerator R) :
      Reachable rs g → smooth n g = some g' → Reachable rs g'
  | afterObstacles (n : Int) (g g' : CaveGenerator R) :
      Reachable rs g → 10 ≤ g.width → 10 ≤ g.height → addObstacles rs n g = some g' →
      Reachable rs g'

/-- Offsets of the neighbourhood of Chebyshev radius `r` without the centre, in the words of
the specification: all `(dx, dy)` with `|dx| ≤ r`, `|dy| ≤ r` and `(dx, dy) ≠ (0, 0)`. -/
def neighborOffsets (r : Int) : Finset (Int × Int) :=
  ((Finset.Icc (-r) r) ×ˢ (Finset.Icc (-r) r)).filter (fun d => d ≠ (0, 0))

/-- Neighbour count in the words of the specification: the sum of `get(x+dx, y+dy)` over the
offsets of the neighbourhood (a failed `get` would count `0`; `get` does not fail on a
well-formed grid). -/
def neighborSumSpec {R : Type} (g : CaveGenerator R) (x y r : Int) : Int :=
  (neighborOffsets r).sum (fun d => (get g (x + d.1) (y + d.2)).getD 0)

/-- Contribution of the offset `(dx, dy)` to the count of `countNeighborWalls`. -/
def neighborTerm {R : Type} (g : CaveGenerator R) (x y dx dy : Int) : Int :=
  if dx = 0 ∧ dy = 0 then 0 else (get g (x + dx) (y + dy)).getD 0

/-- Value of the cell `(x, y)` of a `w` by `h` grid whose border is Wall and whose interior is
Open. -/
def borderCell (w h x y : Int) : Int :=
  if x = 0 ∨ x = w - 1 ∨ y = 0 ∨ y = h - 1 then 1 else 0

/-- Expected cell of the zero-probability scenario after one smoothing iteration, in the words
of the claim: Wall on the border and at the four interior corners, Open elsewhere. -/
def goldenCell (w h x y : Int) : Int :=
  if (x = 0 ∨ x = w - 1 ∨ y = 0 ∨ y = h - 1) ∨ ((x = 1 ∨ x = w - 2) ∧ (y = 1 ∨ y = h - 2))
  then 1 else 0

/-- Expected grid of the zero-probability scenario after one smoothing iteration. -/
def goldenGrid (w h : Int) : List (List Int) :=
  (List.range h.toNat).map fun (j : Nat) =>
    (List.range w.toNat).map fun (i : Nat) => goldenCell w h (i : Int) (j : Int)

/-- Offsets `(dx, dy)` visited by the two stamp loops of `addObstacles` that pass the disc
test `dx*dx + dy*dy ≤ size*size`. -/
def discOffsets (size : Int) : Finset (Int × Int) :=
  ((Finset.Icc (-size) size) ×ˢ (Finset.Icc (-size) size)).filter
    (fun d => d.1 * d.1 + d.2 * d.2 ≤ size * size)

/-- Positions `(cx + dx, cy + dy)` of the offsets of the disc. -/
def stampedCells (cx cy size : Int) : Finset (Int × Int) :=
  (discOffsets size).image (fun d => (cx + d.1, cy + d.2))

/-- Value of an `int` operation whose exact result is `v`: a result outside the 32-bit range
is a signed overflow, undefined behaviour, `none`. -/
def checkInt (v : Int) : Option Int :=
  if -2147483648 ≤ v ∧ v ≤ 2147483647 then some v else none

/-- Runs `body i` followed by the `int` increment `i++`, for `n` rounds. -/
def forLoopInt {σ : Type} (body : Int → σ → Option σ) : Nat → Int → σ → Option σ
  | 0, _, s => some s
  | n + 1, i, s =>
    match body i s with
    | none => none
    | some s' =>
      match checkInt (i + 1) with
      | none => none
      | some i' => forLoopInt body n i' s'

/-- Models `for (int i = lo; i <= hi; i++) body` with 32-bit `int` arithmetic. -/
def forRangeInt {σ : Type} (lo hi : Int) (body : Int → σ → Option σ) (s : σ) : Option σ :=
  forLoopInt body (hi + 1 - lo).toNat lo s

/-- Body of the two loops of `countNeighborWalls` with 32-bit `int` arithmetic: the sums
`x + dx`, `y + dy`, `count++` and `count += grid[ny][nx]` are checked. -/
def countCellInt {R : Type} (g : CaveGenerator R) (x y dx dy : Int) (count : Int) :
    Option Int :=
  if dx = 0 ∧ dy = 0 then some count
  else
    match checkInt (x + dx) with
    | none => none
    | some nx =>
      match checkInt (y + dy) with
      | none => none
      | some ny =>
        if nx < 0 ∨ nx ≥ g.width ∨ ny < 0 ∨ ny ≥ g.height then checkInt (count + 1)
        else
          match readCell g.grid nx ny with
          | none => none
          | some v => checkInt (count + v)

/-- Method `countNeighborWalls(x, y, range)` with 32-bit `int` arithmetic: every operation of
the method (`-range`, the two loop increments, `x + dx`, `y + dy` and the two updates of
`count`) is checked for overflow.  `countNeighborWalls` is the same method over unbounded
integers; the two agree whenever no operation overflows. -/
def countNeighborWallsInt {R : Type} (g : CaveGenerator R) (x y range : Int) : Option Int :=
  match checkInt (-range) with
  | none => none
  | some lo =>
    forRangeInt lo range
      (fun dy c1 => forRangeInt lo range (fun dx c2 => countCellInt g x y dx dy c2) c1) 0

/-! ## Loop rule -/

theorem forLoop_inv {σ : Type} (body : Int → σ → Option σ) (I : Int → σ → Prop) :
    ∀ (n : Nat) (i : Int) (s : σ), I i s →
      (∀ j t, i ≤ j → j < i + n → I j t → ∃ t', body j t = some t' ∧ I (j + 1) t') →
      ∃ s', forLoop body n i s = some s' ∧ I (i + n) s' := by
  intro n
  induction n with
  | zero =>
    intro i s h0 _
    exact ⟨s, rfl, by simpa using h0⟩
  | succ n ih =>
    intro i s h0 hstep
    obtain ⟨t, ht, hI⟩ := hstep i s (le_refl i) (by push_cast; omega) h0
    obtain ⟨s', hs', hI'⟩ := ih (i + 1) t hI (fun j u h1 h2 hu =>
      hstep j u (by omega) (by push_cast; omega) hu)
    refine ⟨s', ?_, ?_⟩
    · simp only [forLoop, ht]; exact hs'
    · have e : i + ((n + 1 : Nat) : Int) = i + 1 + (n : Int) := by push_cast; ring
      rw [e]; exact hI'

/-- Hoare rule for `for (int i = lo; i < hi; i++)`: an invariant that holds at `lo` and is
carried by every round holds at the exit index, and the loop does not fail. -/
theorem forRange_inv {σ : Type} (lo hi : Int) (body : Int → σ → Option σ) (I : Int → σ → Prop)
    (s : σ) (h0 : I lo s)
    (hstep : ∀ j t, lo ≤ j → j < hi → I j t → ∃ t', body j t = some t' ∧ I (j + 1) t') :
    ∃ s', forRange lo hi body s = some s' ∧ I (max lo hi) s' := by
  obtain ⟨s', hs', hI⟩ := forLoop_inv body I (hi - lo).toNat lo s h0
    (fun j t h1 h2 ht => hstep j t h1 (by omega) ht)
  refine ⟨s', hs', ?_⟩
  have e : lo + ((hi - lo).toNat : Int) = max lo hi := by omega
  rw [← e]; exact hI

theorem forRange_empty {σ : Type} (lo hi : Int) (body : Int → σ → Option σ) (s : σ)
    (h : hi ≤ lo) : forRange lo hi body s = some s := by
  have e : (hi - lo).toNat = 0 := by omega
  simp [forRange, e, forLoop]

/-! ## Cells of a shaped storage -/

theorem readCell_some {w h : Int} {grid : List (List Int)} (hs : Shape w h grid) {x y : Int}
    (hx0 : 0 ≤ x) (hx1 : x < w) (hy0 : 0 ≤ y) (hy1 : y < h) :
    ∃ v, readCell grid x y = some v := by
  obtain ⟨_, _, hlen, hrows⟩ := hs
  have hy : y.toNat < grid.length := by omega
  have hrow := hrows _ (List.getElem_mem hy)
  have hx : x.toNat < (grid[y.toNat]).length := by omega
  refine ⟨(grid[y.toNat])[x.toNat], ?_⟩
  have c : ¬ (x < 0 ∨ y < 0) := by omega
  simp only [readCell, c, if_false, List.getElem?_eq_getElem hy, List.getElem?_eq_getElem hx]

theorem readCell_none {w h : Int} {grid : List (List Int)} (hs : Shape w h grid) {x y : Int}
    (hout : x < 0 ∨ w ≤ x ∨ y < 0 ∨ h ≤ y) : readCell grid x y = none := by
  obtain ⟨_, _, hlen, hrows⟩ := hs
  unfold readCell
  by_cases c : x < 0 ∨ y < 0
  · simp [c]
  · simp only [c, if_false]
    cases hrow : grid[y.toNat]? with
    | none => rfl
    | some row =>
      have hl := hrows _ (List.getElem?_mem hrow)
      have hy : y.toNat < grid.length := by
        by_contra hc
        rw [List.getElem?_eq_none (by omega)] at hrow
        cases hrow
      exact List.getElem?_eq_none (by omega)

theorem writeCell_spec {w h : Int} {grid : List (List Int)} (hs : Shape w h grid) {x y : Int}
    (v : Int) (hx0 : 0 ≤ x) (hx1 : x < w) (hy0 : 0 ≤ y) (hy1 : y < h) :
    ∃ grid', writeCell grid x y v = some grid' ∧ Shape w h grid' ∧
      readCell grid' x y = some v ∧
      ∀ x' y', (x' ≠ x ∨ y' ≠ y) → readCell grid' x' y' = readCell grid x' y' := by
  obtain ⟨hw, hh, hlen, hrows⟩ := hs
  have hy : y.toNat < grid.length := by omega
  have hrow := hrows _ (List.getElem_mem hy)
  have hx : x.toNat < (grid[y.toNat]).length := by omega
  have c : ¬ (x < 0 ∨ y < 0) := by omega
  refine ⟨grid.set y.toNat ((grid[y.toNat]).set x.toNat v), ?_, ?_, ?_, ?_⟩
  · simp only [writeCell, c, if_false, List.getElem?_eq_getElem hy, hx, if_true]
  · refine ⟨hw, hh, by simpa using hlen, ?_⟩
    intro row hmem
    rcases List.mem_or_eq_of_mem_set hmem with h1 | h1
    · exact hrows _ h1
    · rw [h1, List.length_set]; exact hrow
  · simp only [readCell, c, if_false, List.getElem?_set, hy, if_true, List.length_set, hx]
  · intro x' y' hne
    unfold readCell
    by_cases c' : x' < 0 ∨ y' < 0
    · simp [c']
    · simp only [c', if_false]
      by_cases ey : y' = y
      · subst ey
        have hxne : x.toNat ≠ x'.toNat := by omega
        simp only [List.getElem?_set, hy, if_true, List.getElem?_eq_getElem hy, hxne, if_false]
      · have hyne : y.toNat ≠ y'.toNat := by omega
        simp only [List.getElem?_set, hyne, if_false]

theorem shape_ext {w h : Int} {g1 g2 : List (List Int)} (h1 : Shape w h g1) (h2 : Shape w h g2)
    (hcell : ∀ x y, 0 ≤ x → x < w → 0 ≤ y → y < h → readCell g1 x y = readCell g2 x y) :
    g1 = g2 := by
  obtain ⟨_, _, hl1, hr1⟩ := h1
  obtain ⟨_, _, hl2, hr2⟩ := h2
  apply List.ext_getElem (by omega)
  intro j hj1 hj2
  have e1 := hr1 _ (List.getElem_mem hj1)
  have e2 := hr2 _ (List.getElem_mem hj2)
  apply List.ext_getElem (by omega)
  intro i hi1 hi2
  have hc := hcell (i : Int) (j : Int) (by omega) (by omega) (by omega) (by omega)
  have c : ¬ (((i : Nat) : Int) < 0 ∨ ((j : Nat) : Int) < 0) := by omega
  simp only [readCell, c, if_false, Int.toNat_ofNat, List.getElem?_eq_getElem hj1,
    List.getElem?_eq_getElem hj2, List.getElem?_eq_getElem hi1,
    List.getElem?_eq_getElem hi2] at hc
  exact Option.some.inj hc

/-! ## Neighbour counting -/

theorem countCell_total {R : Type} (g : CaveGenerator R) (hwf : g.WF) (x y dx dy c : Int) :
    ∃ c', countCell g x y dx dy c = some c' := by
  unfold countCell
  by_cases h0 : dx = 0 ∧ dy = 0
  · exact ⟨c, by simp [h0]⟩
  · by_cases h1 : x + dx < 0 ∨ x + dx ≥ g.width ∨ y + dy < 0 ∨ y + dy ≥ g.height
    · exact ⟨c + 1, by simp [h0, h1]⟩
    · obtain ⟨v, hv⟩ := readCell_some hwf (x := x + dx) (y := y + dy)
        (by omega) (by omega) (by omega) (by omega)
      exact ⟨c + v, by simp [h0, h1, hv]⟩

theorem countNeighborWalls_total {R : Type} (g : CaveGenerator R) (hwf : g.WF)
    (x y range : Int) : ∃ c, countNeighborWalls g x y range = some c := by
  obtain ⟨c, hc, _⟩ := forRange_inv (-range) (range + 1)
    (fun dy c1 => forRange (-range) (range + 1) (fun dx c2 => countCell g x y dx dy c2) c1)
    (fun _ _ => True) 0 trivial
    (fun dy c1 _ _ _ => by
      obtain ⟨c', hc', _⟩ := forRange_inv (-range) (range + 1)
        (fun dx c2 => countCell g x y dx dy c2) (fun _ _ => True) c1 trivial
        (fun dx c2 _ _ _ => by
          obtain ⟨c3, h3⟩ := countCell_total g hwf x y dx dy c2
          exact ⟨c3, h3, trivial⟩)
      exact ⟨c', hc', trivial⟩)
  exact ⟨c, hc⟩

/-! ## One generation of `smooth` -/

theorem smoothCell_step {R : Type} (g : CaveGenerator R) (hwf : g.WF) (j i : Int)
    (hj0 : 1 ≤ j) (hj1 : j < g.height - 1) (hi0 : 1 ≤ i) (hi1 : i < g.width - 1)
    (ng : List (List Int)) (hinv : smoothInv g j i ng) :
    ∃ ng', smoothCell g i j ng = some ng' ∧ smoothInv g j (i + 1) ng' := by
  obtain ⟨hshape, hdone, hrest⟩ := hinv
  obtain ⟨n, hn⟩ := countNeighborWalls_total g hwf i j 1
  have hcur : ¬ smoothDone g.width j i i j := by unfold smoothDone; omega
  have hold := hrest i j hcur
  have hnext : ∀ x y, (x ≠ i ∨ y ≠ j) →
      (smoothDone g.width j (i + 1) x y ↔ smoothDone g.width j i x y) := by
    intro x y hne; unfold smoothDone; omega
  have hnow : ∀ x y, ¬ (x ≠ i ∨ y ≠ j) → smoothDone g.width j (i + 1) x y := by
    intro x y hne; unfold smoothDone; omega
  have write : ∀ v : Int, smoothTarget g i j = some v →
      ∃ ng', writeCell ng i j v = some ng' ∧ smoothInv g j (i + 1) ng' := by
    intro v hv
    obtain ⟨ng', hw, hs', hself, hother⟩ := writeCell_spec hshape v
      (x := i) (y := j) (by omega) (by omega) (by omega) (by omega)
    refine ⟨ng', hw, hs', ?_, ?_⟩
    · intro x y hd
      by_cases hne : x ≠ i ∨ y ≠ j
      · rw [hother x y hne]; exact hdone x y ((hnext x y hne).1 hd)
      · have ex : x = i := by omega
        have ey : y = j := by omega
        rw [ex, ey, hself, hv]
    · intro x y hd
      by_cases hne : x ≠ i ∨ y ≠ j
      · rw [hother x y hne]; exact hrest x y (fun hc => hd ((hnext x y hne).2 hc))
      · exact absurd (hnow x y hne) hd
  unfold smoothCell
  simp only [hn]
  by_cases h5 : n ≥ 5
  · simp only [h5, if_true]
    exact write 1 (by simp [smoothTarget, hn, h5])
  · by_cases h3 : n ≤ 3
    · simp only [h5, h3, if_false, if_true]
      exact write 0 (by simp [smoothTarget, hn, h5, h3])
    · simp only [h5, h3, if_false]
      refine ⟨ng, rfl, hshape, ?_, ?_⟩
      · intro x y hd
        by_cases hne : x ≠ i ∨ y ≠ j
        · exact hdone x y ((hnext x y hne).1 hd)
        · have ex : x = i := by omega
          have ey : y = j := by omega
          rw [ex, ey, hold]; simp [smoothTarget, hn, h5, h3]
      · intro x y hd
        by_cases hne : x ≠ i ∨ y ≠ j
        · exact hrest x y (fun hc => hd ((hnext x y hne).2 hc))
        · exact absurd (hnow x y hne) hd

theorem smoothRow_step {R : Type} (g : CaveGenerator R) (hwf : g.WF) (j : Int)
    (hj0 : 1 ≤ j) (hj1 : j < g.height - 1) (ng : List (List Int))
    (hinv : smoothInv g j 1 ng) :
    ∃ ng', forRange 1 (g.width - 1) (fun x n2 => smoothCell g x j n2) ng = some ng' ∧
      smoothInv g (j + 1) 1 ng' := by
  obtain ⟨ng', hrun, hI⟩ := forRange_inv 1 (g.width - 1) (fun x n2 => smoothCell g x j n2)
    (fun i n2 => smoothInv g j i n2) ng hinv
    (fun i n2 h0 h1 hi => smoothCell_step g hwf j i hj0 hj1 h0 h1 n2 hi)
  refine ⟨ng', hrun, ?_⟩
  have hsame : ∀ x y, smoothDone g.width (j + 1) 1 x y ↔
      smoothDone g.width j (max 1 (g.width - 1)) x y := by
    intro x y; unfold smoothDone; omega
  obtain ⟨hs, hd, hr⟩ := hI
  exact ⟨hs, fun x y h => hd x y ((hsame x y).1 h),
    fun x y h => hr x y (fun hc => h ((hsame x y).2 hc))⟩

/-- One generation on a well-formed object: it succeeds, keeps the dimensions and the
generator, rewrites exactly the interior cells, each from the previous generation. -/
theorem smoothPass_spec {R : Type} (g : CaveGenerator R) (hwf : g.WF) :
    ∃ g', smoothPass g = some g' ∧ g'.width = g.width ∧ g'.height = g.height ∧
      g'.rng = g.rng ∧ g'.WF ∧
      (∀ x y, 1 ≤ x → x < g.width - 1 → 1 ≤ y → y < g.height - 1 →
        readCell g'.grid x y = smoothTarget g x y) ∧
      (∀ x y, ¬ (1 ≤ x ∧ x < g.width - 1 ∧ 1 ≤ y ∧ y < g.height - 1) →
        readCell g'.grid x y = readCell g.grid x y) := by
  have h0 : smoothInv g 1 1 g.grid :=
    ⟨hwf, fun x y h => by unfold smoothDone at h; omega, fun _ _ _ => rfl⟩
  obtain ⟨ng, hrun, hs, hd, hr⟩ := forRange_inv 1 (g.height - 1)
    (fun y n1 => forRange 1 (g.width - 1) (fun x n2 => smoothCell g x y n2) n1)
    (fun j n1 => smoothInv g j 1 n1) g.grid h0
    (fun j n1 hj0 hj1 hj => smoothRow_step g hwf j hj0 hj1 n1 hj)
  refine ⟨{ g with grid := ng }, ?_, rfl, rfl, rfl, hs, ?_, ?_⟩
  · simp only [smoothPass, hrun]
  · intro x y hx0 hx1 hy0 hy1
    exact hd x y (by unfold smoothDone; omega)
  · intro x y hout
    exact hr x y (by unfold smoothDone; omega)

/-! ## `initialize` -/

theorem write_spec {R : Type} (g : CaveGenerator R) (hwf : g.WF) {x y : Int} (v : Int)
    (hx0 : 0 ≤ x) (hx1 : x < g.width) (hy0 : 0 ≤ y) (hy1 : y < g.height) :
    ∃ g', g.write x y v = some g' ∧ g'.width = g.width ∧ g'.height = g.height ∧
      g'.rng = g.rng ∧ g'.WF ∧ readCell g'.grid x y = some v ∧
      ∀ x' y', (x' ≠ x ∨ y' ≠ y) → readCell g'.grid x' y' = readCell g.grid x' y' := by
  obtain ⟨ng, hw, hs, hself, hother⟩ := writeCell_spec hwf v hx0 hx1 hy0 hy1
  exact ⟨{ g with grid := ng }, by simp only [CaveGenerator.write, hw], rfl, rfl, rfl, hs,
    hself, hother⟩

theorem initCell_step {R : Type} (rs : RandomSource R) (p : ℚ) (g0 : CaveGenerator R)
    (j i : Int) (hj0 : 0 ≤ j) (hj1 : j < g0.height) (hi0 : 0 ≤ i) (hi1 : i < g0.width)
    (g : CaveGenerator R) (hinv : initInv rs p g0 j i g) :
    ∃ g', initCell rs p i j g = some g' ∧ initInv rs p g0 j (i + 1) g' := by
  obtain ⟨hw, hh, hwf, hrng, hdone⟩ := hinv
  have hnext : ∀ x y, (x ≠ i ∨ y ≠ j) → initDone g0.width j (i + 1) x y →
      initDone g0.width j i x y := by
    intro x y hne; unfold initDone; omega
  have finish : ∀ (g1 : CaveGenerator R) (v : Int), g1.width = g0.width →
      g1.height = g0.height → g1.WF → g1.grid = g.grid →
      g1.rng = rs.skipReal^[initDraws g0.width g0.height j (i + 1)] g0.rng →
      v = initTarget rs p g0.rng g0.width g0.height i j →
      ∃ g', g1.write i j v = some g' ∧ initInv rs p g0 j (i + 1) g' := by
    intro g1 v hw1 hh1 hwf1 hgrid hrng1 hv
    obtain ⟨g', hwr, hw', hh', hr', hwf', hself, hother⟩ := write_spec g1 hwf1 v
      (x := i) (y := j) (by omega) (by omega) (by omega) (by omega)
    refine ⟨g', hwr, by omega, by omega, hwf', by rw [hr', hrng1], ?_⟩
    intro x y hd
    by_cases hne : x ≠ i ∨ y ≠ j
    · rw [hother x y hne, hgrid]; exact hdone x y (hnext x y hne hd)
    · have ex : x = i := by omega
      have ey : y = j := by omega
      rw [ex, ey, hself, hv]
  unfold initCell
  by_cases hb : i = 0 ∨ i = g.width - 1 ∨ j = 0 ∨ j = g.height - 1
  · simp only [hb, if_true]
    have hb0 : i = 0 ∨ i = g0.width - 1 ∨ j = 0 ∨ j = g0.height - 1 := by
      rw [← hw, ← hh]; exact hb
    refine finish g 1 hw hh hwf rfl ?_ (by simp [initTarget, hb0])
    rw [hrng]
    have e : initDraws g0.width g0.height j (i + 1) = initDraws g0.width g0.height j i := by
      unfold initDraws
      by_cases c : 1 ≤ j ∧ j ≤ g0.height - 2
      · simp only [c, and_self, if_true]; omega
      · simp only [c, if_false]
    rw [e]
  · simp only [hb, if_false]
    have hb0 : ¬ (i = 0 ∨ i = g0.width - 1 ∨ j = 0 ∨ j = g0.height - 1) := by
      rw [← hw, ← hh]; exact hb
    have c : 1 ≤ j ∧ j ≤ g0.height - 2 := by omega
    have ecur : initDraws g0.width g0.height j i = interiorIndex g0.width i j := by
      unfold initDraws interiorIndex
      simp only [c, and_self, if_true]
      have e1 : min (j - 1).toNat (g0.height - 2).toNat = (j - 1).toNat := by omega
      have e2 : min (i - 1).toNat (g0.width - 2).toNat = (i - 1).toNat := by omega
      rw [e1, e2]
    have enext : initDraws g0.width g0.height j (i + 1) =
        initDraws g0.width g0.height j i + 1 := by
      unfold initDraws
      simp only [c, and_self, if_true]
      omega
    refine finish { g with rng := (rs.uniformReal g.rng).2 }
      (if (rs.uniformReal g.rng).1 < p then 1 else 0) hw hh hwf rfl ?_ ?_
    · show (rs.uniformReal g.rng).2 = _
      rw [enext, Function.iterate_succ_apply', ← hrng]; rfl
    · simp only [initTarget, hb0, if_false, RandomSource.realDraw, ← ecur, ← hrng]

theorem initRow_step {R : Type} (rs : RandomSource R) (p : ℚ) (g0 : CaveGenerator R)
    (hwf0 : g0.WF) (j : Int) (hj0 : 0 ≤ j) (hj1 : j < g0.height) (g : CaveGenerator R)
    (hinv : initInv rs p g0 j 0 g) :
    ∃ g', forRange 0 g.width (fun x g2 => initCell rs p x j g2) g = some g' ∧
      initInv rs p g0 (j + 1) 0 g' := by
  have hw : g.width = g0.width := hinv.1
  have hw0 : 0 ≤ g0.width := hwf0.1
  rw [hw]
  obtain ⟨g', hrun, hI⟩ := forRange_inv 0 g0.width (fun x g2 => initCell rs p x j g2)
    (fun i g2 => initInv rs p g0 j i g2) g hinv
    (fun i g2 h0 h1 hi => initCell_step rs p g0 j i hj0 hj1 h0 h1 g2 hi)
  refine ⟨g', hrun, ?_⟩
  obtain ⟨hw', hh', hwf', hrng', hdone'⟩ := hI
  have em : max 0 g0.width = g0.width := by omega
  rw [em] at hrng' hdone'
  refine ⟨hw', hh', hwf', ?_, ?_⟩
  · rw [hrng']
    have e : initDraws g0.width g0.height (j + 1) 0 = initDraws g0.width g0.height j g0.width := by
      unfold initDraws
      by_cases c : 1 ≤ j ∧ j ≤ g0.height - 2
      · have e1 : min (j + 1 - 1).toNat (g0.height - 2).toNat =
            min (j - 1).toNat (g0.height - 2).toNat + 1 := by omega
        have e2 : min (g0.width - 1).toNat (g0.width - 2).toNat = (g0.width - 2).toNat := by
          omega
        have e3 : min (0 - 1 : Int).toNat (g0.width - 2).toNat = 0 := by omega
        rw [e1, e3]
        simp only [c, and_self, if_true, e2]
        split_ifs <;> ring
      · have e1 : min (j + 1 - 1).toNat (g0.height - 2).toNat =
            min (j - 1).toNat (g0.height - 2).toNat := by omega
        have e3 : min (0 - 1 : Int).toNat (g0.width - 2).toNat = 0 := by omega
        rw [e1, e3]
        simp only [c, if_false]
        split_ifs <;> rfl
    rw [e]
  · intro x y hd
    exact hdone' x y (by unfold initDone at hd ⊢; omega)

/-- Method `initialize` on a well-formed object: it succeeds, keeps the dimensions, makes
`(width-2)*(height-2)` real draws and leaves `initTarget` in every cell. -/
theorem initializeGrid_spec {R : Type} (rs : RandomSource R) (p : ℚ) (g : CaveGenerator R)
    (hwf : g.WF) :
    ∃ g', initializeGrid rs p g = some g' ∧ g'.width = g.width ∧ g'.height = g.height ∧
      g'.WF ∧ g'.rng = rs.skipReal^[(g.height - 2).toNat * (g.width - 2).toNat] g.rng ∧
      ∀ x y, 0 ≤ x → x < g.width → 0 ≤ y → y < g.height →
        readCell g'.grid x y = some (initTarget rs p g.rng g.width g.height x y) := by
  have hh0 : 0 ≤ g.height := hwf.2.1
  have h0 : initInv rs p g 0 0 g := by
    refine ⟨rfl, rfl, hwf, ?_, ?_⟩
    · have e : initDraws g.width g.height 0 0 = 0 := by
        unfold initDraws
        have e1 : min (0 - 1 : Int).toNat (g.height - 2).toNat = 0 := by omega
        rw [e1]; simp
      rw [e]; rfl
    · intro x y hd; unfold initDone at hd; omega
  obtain ⟨g', hrun, hw', hh', hwf', hrng', hdone'⟩ := forRange_inv 0 g.height
    (fun y g1 => forRange 0 g1.width (fun x g2 => initCell rs p x y g2) g1)
    (fun j g1 => initInv rs p g j 0 g1) g h0
    (fun j g1 hj0 hj1 hj => initRow_step rs p g hwf j hj0 hj1 g1 hj)
  have em : max 0 g.height = g.height := by omega
  rw [em] at hrng' hdone'
  refine ⟨g', hrun, hw', hh', hwf', ?_, ?_⟩
  · rw [hrng']
    have e : initDraws g.width g.height g.height 0 =
        (g.height - 2).toNat * (g.width - 2).toNat := by
      unfold initDraws
      have e1 : min (g.height - 1).toNat (g.height - 2).toNat = (g.height - 2).toNat := by omega
      have c : ¬ (1 ≤ g.height ∧ g.height ≤ g.height - 2) := by omega
      rw [e1]; simp only [c, if_false, add_zero]
    rw [e]
  · intro x y hx0 hx1 hy0 hy1
    exact hdone' x y (by unfold initDone; omega)

/-! ## `smooth` -/

theorem smooth_one {R : Type} (g : CaveGenerator R) : smooth 1 g = smoothPass g := by
  simp only [smooth, forRange]
  have e : ((1 : Int) - 0).toNat = 1 := by decide
  rw [e]
  simp only [forLoop]
  cases smoothPass g <;> rfl

/-- Method `smooth` on a well-formed object, any iteration count: it succeeds, keeps the
dimensions and the generator and never changes a cell outside the interior. -/
theorem smooth_spec {R : Type} (n : Int) (g : CaveGenerator R) (hwf : g.WF) :
    ∃ g', smooth n g = some g' ∧ g'.width = g.width ∧ g'.height = g.height ∧
      g'.rng = g.rng ∧ g'.WF ∧
      ∀ x y, ¬ (1 ≤ x ∧ x < g.width - 1 ∧ 1 ≤ y ∧ y < g.height - 1) →
        readCell g'.grid x y = readCell g.grid x y := by
  obtain ⟨g', hrun, hI⟩ := forRange_inv 0 n (fun _ g1 => smoothPass g1)
    (fun _ g1 => g1.width = g.width ∧ g1.height = g.height ∧ g1.rng = g.rng ∧ g1.WF ∧
      ∀ x y, ¬ (1 ≤ x ∧ x < g.width - 1 ∧ 1 ≤ y ∧ y < g.height - 1) →
        readCell g1.grid x y = readCell g.grid x y) g
    ⟨rfl, rfl, rfl, hwf, fun _ _ _ => rfl⟩
    (fun _ g1 _ _ hinv => by
      obtain ⟨hw, hh, hr, hwf1, hcells⟩ := hinv
      obtain ⟨g2, hrun2, hw2, hh2, hr2, hwf2, _, hout⟩ := smoothPass_spec g1 hwf1
      refine ⟨g2, hrun2, by omega, by omega, by rw [hr2, hr], hwf2, ?_⟩
      intro x y hxy
      rw [hout x y (by rw [hw, hh]; exact hxy)]
      exact hcells x y hxy)
  exact ⟨g', hrun, hI⟩

/-! ## `addObstacles` -/

theorem inDisc_bounds {size dx dy : Int} (hs : 0 ≤ size) (hd : inDisc size dx dy) :
    -size ≤ dx ∧ dx ≤ size ∧ -size ≤ dy ∧ dy ≤ size := by
  unfold inDisc at hd
  refine ⟨?_, ?_, ?_, ?_⟩
  · by_contra hc; nlinarith [mul_self_nonneg dy]
  · by_contra hc; nlinarith [mul_self_nonneg dy]
  · by_contra hc; nlinarith [mul_self_nonneg dx]
  · by_contra hc; nlinarith [mul_self_nonneg dx]

theorem stampCell_step {R : Type} (g0 : CaveGenerator R) (cx cy size j i : Int)
    (hj0 : -size ≤ j) (hi0 : -size ≤ i) (hi1 : i < size + 1)
    (g : CaveGenerator R) (hinv : stampInv g0 cx cy size j i g) :
    ∃ g', stampCell cx cy size i j g = some g' ∧ stampInv g0 cx cy size j (i + 1) g' := by
  obtain ⟨hw, hh, hr, hwf, hdone, hrest⟩ := hinv
  have hnext : ∀ x y, (x ≠ cx + i ∨ y ≠ cy + j) →
      (stampDone g0.width g0.height cx cy size j (i + 1) x y ↔
        stampDone g0.width g0.height cx cy size j i x y) := by
    intro x y hne; unfold stampDone
    constructor <;> rintro ⟨hd, hreg⟩ <;> exact ⟨hd, by omega⟩
  have ex : cx + i - cx = i := by omega
  have ey : cy + j - cy = j := by omega
  have hcur : ¬ stampDone g0.width g0.height cx cy size j i (cx + i) (cy + j) := by
    rintro ⟨_, hreg⟩; omega
  have keep : ¬ stampDone g0.width g0.height cx cy size j (i + 1) (cx + i) (cy + j) →
      stampInv g0 cx cy size j (i + 1) g := by
    intro hnot
    refine ⟨hw, hh, hr, hwf, ?_, ?_⟩
    · intro x y hd
      by_cases hne : x ≠ cx + i ∨ y ≠ cy + j
      · exact hdone x y ((hnext x y hne).1 hd)
      · have e1 : x = cx + i := by omega
        have e2 : y = cy + j := by omega
        rw [e1, e2] at hd; exact absurd hd hnot
    · intro x y hd
      by_cases hne : x ≠ cx + i ∨ y ≠ cy + j
      · exact hrest x y (fun hc => hd ((hnext x y hne).2 hc))
      · have e1 : x = cx + i := by omega
        have e2 : y = cy + j := by omega
        rw [e1, e2]; exact hrest _ _ hcur
  unfold stampCell
  by_cases hin : cx + i ≥ 0 ∧ cx + i < g.width ∧ cy + j ≥ 0 ∧ cy + j < g.height
  · by_cases hdisc : i * i + j * j ≤ size * size
    · simp only [hin, and_self, if_true, hdisc]
      obtain ⟨g', hwr, hw', hh', hr', hwf', hself, hother⟩ := write_spec g hwf 1
        (x := cx + i) (y := cy + j) (by omega) (by omega) (by omega) (by omega)
      refine ⟨g', hwr, by omega, by omega, by rw [hr', hr], hwf', ?_, ?_⟩
      · intro x y hd
        by_cases hne : x ≠ cx + i ∨ y ≠ cy + j
        · rw [hother x y hne]; exact hdone x y ((hnext x y hne).1 hd)
        · have e1 : x = cx + i := by omega
          have e2 : y = cy + j := by omega
          rw [e1, e2]; exact hself
      · intro x y hd
        by_cases hne : x ≠ cx + i ∨ y ≠ cy + j
        · rw [hother x y hne]; exact hrest x y (fun hc => hd ((hnext x y hne).2 hc))
        · have e1 : x = cx + i := by omega
          have e2 : y = cy + j := by omega
          exfalso; apply hd; rw [e1, e2]
          unfold stampDone inDisc
          rw [ex, ey]
          exact ⟨hdisc, by omega⟩
    · simp only [hin, and_self, if_true, hdisc, if_false]
      refine ⟨g, rfl, keep ?_⟩
      unfold stampDone inDisc
      rw [ex, ey]
      exact fun hc => hdisc hc.1
  · simp only [hin, if_false]
    refine ⟨g, rfl, keep ?_⟩
    rintro ⟨_, hreg⟩
    omega

theorem stampRow_step {R : Type} (g0 : CaveGenerator R) (cx cy size j : Int)
    (hj0 : -size ≤ j) (g : CaveGenerator R) (hinv : stampInv g0 cx cy size j (-size) g) :
    ∃ g', forRange (-size) (size + 1) (fun dx g2 => stampCell cx cy size dx j g2) g = some g' ∧
      stampInv g0 cx cy size (j + 1) (-size) g' := by
  obtain ⟨g', hrun, hI⟩ := forRange_inv (-size) (size + 1)
    (fun dx g2 => stampCell cx cy size dx j g2)
    (fun i g2 => stampInv g0 cx cy size j i g2) g hinv
    (fun i g2 h0 h1 hi => stampCell_step g0 cx cy size j i hj0 h0 h1 g2 hi)
  refine ⟨g', hrun, ?_⟩
  have hsame : ∀ x y, stampDone g0.width g0.height cx cy size (j + 1) (-size) x y ↔
      stampDone g0.width g0.height cx cy size j (max (-size) (size + 1)) x y := by
    intro x y; unfold stampDone
    constructor <;> rintro ⟨hd, hreg⟩ <;> exact ⟨hd, by omega⟩
  obtain ⟨hw, hh, hr, hwf, hd, hrest⟩ := hI
  exact ⟨hw, hh, hr, hwf, fun x y h => hd x y ((hsame x y).1 h),
    fun x y h => hrest x y (fun hc => h ((hsame x y).2 hc))⟩

/-- The stamp of one obstacle on a well-formed object with `size ≥ 0`: it succeeds, keeps
dimensions and generator, sets the in-grid cells of the disc to `1` and keeps the others. -/
theorem stamp_spec {R : Type} (g : CaveGenerator R) (hwf : g.WF) (cx cy size : Int)
    (hsize : 0 ≤ size) :
    ∃ g', forRange (-size) (size + 1)
        (fun dy g1 => forRange (-size) (size + 1)
          (fun dx g2 => stampCell cx cy size dx dy g2) g1) g = some g' ∧
      g'.width = g.width ∧ g'.height = g.height ∧ g'.rng = g.rng ∧ g'.WF ∧
      (∀ x y, 0 ≤ x → x < g.width → 0 ≤ y → y < g.height → inDisc size (x - cx) (y - cy) →
        readCell g'.grid x y = some 1) ∧
      (∀ x y, ¬ inDisc size (x - cx) (y - cy) → readCell g'.grid x y = readCell g.grid x y) := by
  have h0 : stampInv g cx cy size (-size) (-size) g :=
    ⟨rfl, rfl, rfl, hwf, fun x y h => by obtain ⟨_, hreg⟩ := h; omega, fun _ _ _ => rfl⟩
  obtain ⟨g', hrun, hw, hh, hr, hwf', hd, hrest⟩ := forRange_inv (-size) (size + 1)
    (fun dy g1 => forRange (-size) (size + 1) (fun dx g2 => stampCell cx cy size dx dy g2) g1)
    (fun j g1 => stampInv g cx cy size j (-size) g1) g h0
    (fun j g1 hj0 _ hj => stampRow_step g cx cy size j hj0 g1 hj)
  refine ⟨g', hrun, hw, hh, hr, hwf', ?_, ?_⟩
  · intro x y hx0 hx1 hy0 hy1 hdisc
    have hb := inDisc_bounds hsize hdisc
    exact hd x y ⟨hdisc, by omega⟩
  · intro x y hdisc
    exact hrest x y (fun hc => hdisc hc.1)

/-- The part of `addObstacles` after the draws, for a centre inside the grid and `size ≥ 0`:
it succeeds; a centre that is not Open leaves the object as it is, an Open centre stamps. -/
theorem placeObstacle_spec {R : Type} (g : CaveGenerator R) (hwf : g.WF) (cx cy size : Int)
    (hcx0 : 0 ≤ cx) (hcx1 : cx < g.width) (hcy0 : 0 ≤ cy) (hcy1 : cy < g.height)
    (hsize : 0 ≤ size) :
    ∃ c g', readCell g.grid cx cy = some c ∧ placeObstacle cx cy size g = some g' ∧
      g'.width = g.width ∧ g'.height = g.height ∧ g'.rng = g.rng ∧ g'.WF ∧
      (c ≠ 0 → g' = g) ∧
      (c = 0 →
        (∀ x y, 0 ≤ x → x < g.width → 0 ≤ y → y < g.height → inDisc size (x - cx) (y - cy) →
          readCell g'.grid x y = some 1) ∧
        (∀ x y, ¬ inDisc size (x - cx) (y - cy) →
          readCell g'.grid x y = readCell g.grid x y)) := by
  obtain ⟨c, hc⟩ := readCell_some hwf hcx0 hcx1 hcy0 hcy1
  by_cases h0 : c = 0
  · obtain ⟨g', hrun, hw, hh, hr, hwf', hin, hout⟩ := stamp_spec g hwf cx cy size hsize
    refine ⟨c, g', hc, ?_, hw, hh, hr, hwf', fun hne => absurd h0 hne, fun _ => ⟨hin, hout⟩⟩
    simp only [placeObstacle, hc, h0, if_true]
    exact hrun
  · refine ⟨c, g, hc, ?_, rfl, rfl, rfl, hwf, fun _ => rfl, fun h => absurd h h0⟩
    simp only [placeObstacle, hc, h0, if_false]

/-- One round of the loop of `addObstacles` on a well-formed grid of at least 10 by 10 with
in-range integer draws: it succeeds, makes exactly the three draws, never clears a Wall
cell, and changes no cell at all when the drawn centre is not Open. -/
theorem obstacleStep_spec {R : Type} (rs : RandomSource R) (hrs : rs.IntInRange)
    (g : CaveGenerator R) (hwf : g.WF) (hw10 : 10 ≤ g.width) (hh10 : 10 ≤ g.height) :
    ∃ g', obstacleStep rs g = some g' ∧ g'.width = g.width ∧ g'.height = g.height ∧
      g'.rng = skipObstacleDraws rs g.width g.height g.rng ∧ g'.WF ∧
      (∀ x y, readCell g.grid x y = some 1 → readCell g'.grid x y = some 1) ∧
      (∀ c, readCell g.grid (rs.uniformInt 5 (g.width - 5) g.rng).1
          (rs.uniformInt 5 (g.height - 5) (rs.uniformInt 5 (g.width - 5) g.rng).2).1 = some c →
        c ≠ 0 → g'.grid = g.grid) := by
  have hX := hrs 5 (g.width - 5) g.rng (by omega)
  have hY := hrs 5 (g.height - 5) (rs.uniformInt 5 (g.width - 5) g.rng).2 (by omega)
  have hS := hrs 1 3 (rs.uniformInt 5 (g.height - 5)
    (rs.uniformInt 5 (g.width - 5) g.rng).2).2 (by omega)
  obtain ⟨c, g', hc, hrun, hw, hh, hr, hwf', hskip, hstamp⟩ := placeObstacle_spec
    { g with rng := skipObstacleDraws rs g.width g.height g.rng } hwf
    (rs.uniformInt 5 (g.width - 5) g.rng).1
    (rs.uniformInt 5 (g.height - 5) (rs.uniformInt 5 (g.width - 5) g.rng).2).1
    (rs.uniformInt 1 3 (rs.uniformInt 5 (g.height - 5)
      (rs.uniformInt 5 (g.width - 5) g.rng).2).2).1
    (by omega) (by show _ < g.width; omega) (by omega) (by show _ < g.height; omega) (by omega)
  refine ⟨g', hrun, hw, hh, hr, hwf', ?_, ?_⟩
  · intro x y hwall
    by_cases h0 : c = 0
    · obtain ⟨hin, hout⟩ := hstamp h0
      by_cases hd : inDisc (rs.uniformInt 1 3 (rs.uniformInt 5 (g.height - 5)
          (rs.uniformInt 5 (g.width - 5) g.rng).2).2).1
          (x - (rs.uniformInt 5 (g.width - 5) g.rng).1)
          (y - (rs.uniformInt 5 (g.height - 5) (rs.uniformInt 5 (g.width - 5) g.rng).2).1)
      · by_cases hb : x < 0 ∨ g.width ≤ x ∨ y < 0 ∨ g.height ≤ y
        · rw [readCell_none hwf hb] at hwall; cases hwall
        · exact hin x y (by omega) (by show _ < g.width; omega) (by omega)
            (by show _ < g.height; omega) hd
      · rw [hout x y hd]; exact hwall
    · rw [hskip h0]; exact hwall
  · intro c' hc' hne
    have e : c' = c := by
      have := hc'.symm.trans hc
      exact Option.some.inj this
    rw [hskip (e ▸ hne)]

/-- On a grid of at least 10 by 10 the three distributions of `addObstacles` are well
formed and the method is its loop. -/
theorem addObstacles_eq_loop {R : Type} (rs : RandomSource R) (n : Int)
    (g : CaveGenerator R) (hw10 : 10 ≤ g.width) (hh10 : 10 ≤ g.height) :
    addObstacles rs n g = forRange 0 n (fun _ g1 => obstacleStep rs g1) g := by
  have c : 5 ≤ g.width - 5 ∧ 5 ≤ g.height - 5 := by omega
  simp only [addObstacles, c, and_self, if_true]

/-- Below 10 by 10 the construction of the distributions of `addObstacles` is undefined. -/
theorem addObstacles_small {R : Type} (rs : RandomSource R) (n : Int)
    (g : CaveGenerator R) (hsmall : g.width < 10 ∨ g.height < 10) :
    addObstacles rs n g = none := by
  have c : ¬ (5 ≤ g.width - 5 ∧ 5 ≤ g.height - 5) := by omega
  simp only [addObstacles, c, if_false]

/-- Method `addObstacles` on a well-formed grid of at least 10 by 10 with in-range integer
draws: it succeeds, keeps the dimensions, makes three draws per round and never clears a
Wall cell. -/
theorem addObstacles_spec {R : Type} (rs : RandomSource R) (hrs : rs.IntInRange) (n : Int)
    (g : CaveGenerator R) (hwf : g.WF) (hw10 : 10 ≤ g.width) (hh10 : 10 ≤ g.height) :
    ∃ g', addObstacles rs n g = some g' ∧ g'.width = g.width ∧ g'.height = g.height ∧
      g'.WF ∧ g'.rng = (skipObstacleDraws rs g.width g.height)^[n.toNat] g.rng ∧
      ∀ x y, readCell g.grid x y = some 1 → readCell g'.grid x y = some 1 := by
  obtain ⟨g', hrun, hw, hh, hwf', hr, hcells⟩ := forRange_inv 0 n
    (fun _ g1 => obstacleStep rs g1)
    (fun k g1 => g1.width = g.width ∧ g1.height = g.height ∧ g1.WF ∧
      g1.rng = (skipObstacleDraws rs g.width g.height)^[k.toNat] g.rng ∧
      ∀ x y, readCell g.grid x y = some 1 → readCell g1.grid x y = some 1) g
    ⟨rfl, rfl, hwf, rfl, fun _ _ h => h⟩
    (fun k g1 hk0 _ hinv => by
      obtain ⟨hw1, hh1, hwf1, hr1, hc1⟩ := hinv
      obtain ⟨g2, hrun2, hw2, hh2, hr2, hwf2, hmono, _⟩ := obstacleStep_spec rs hrs g1 hwf1
        (by omega) (by omega)
      refine ⟨g2, hrun2, by omega, by omega, hwf2, ?_, fun x y h => hmono x y (hc1 x y h)⟩
      have e : (k + 1).toNat = k.toNat + 1 := by omega
      rw [hr2, hw1, hh1, hr1, e, Function.iterate_succ_apply'])
  refine ⟨g', by rw [addObstacles_eq_loop rs n g hw10 hh10]; exact hrun, hw, hh, hwf', ?_,
    hcells⟩
  have e : (max 0 n).toNat = n.toNat := by omega
  rw [hr, e]

/-! ## Wall counts -/

theorem readCell_natCast (grid : List (List Int)) (i j : Nat) :
    readCell grid (i : Int) (j : Int) =
      match grid[j]? with
      | none => none
      | some row => row[i]? := by
  have c : ¬ ((i : Int) < 0 ∨ (j : Int) < 0) := by omega
  simp only [readCell, c, if_false, Int.toNat_ofNat]

theorem count_one_mono : ∀ (l1 l2 : List Int), l1.length = l2.length →
    (∀ i : Nat, l1[i]? = some 1 → l2[i]? = some 1) → l1.count 1 ≤ l2.count 1
  | [], _, _, _ => by simp
  | _ :: _, [], h, _ => by simp at h
  | a :: t1, b :: t2, h, hc => by
    have ih := count_one_mono t1 t2 (by simpa using h) (fun i hi => by
      have := hc (i + 1) (by simpa using hi)
      simpa using this)
    have h0 : a = 1 → b = 1 := fun ha => by
      have := hc 0 (by simp [ha])
      simpa using this
    rw [List.count_cons, List.count_cons]
    by_cases ha : a = 1
    · simp [ha, h0 ha]; exact ih
    · have hf : (a == 1) = false := by simpa using ha
      rw [hf]
      exact le_trans (by simp) (le_trans ih (Nat.le_add_right _ _))

theorem rows_count_mono : ∀ (g1 g2 : List (List Int)), g1.length = g2.length →
    (∀ (j : Nat) r1 r2, g1[j]? = some r1 → g2[j]? = some r2 → r1.count 1 ≤ r2.count 1) →
    wallCount g1 ≤ wallCount g2
  | [], [], _, _ => le_refl _
  | [], _ :: _, h, _ => by simp at h
  | _ :: _, [], h, _ => by simp at h
  | r1 :: t1, r2 :: t2, h, hc => by
    have ih := rows_count_mono t1 t2 (by simpa using h) (fun j a b ha hb =>
      hc (j + 1) a b (by simpa using ha) (by simpa using hb))
    have h0 := hc 0 r1 r2 (by simp) (by simp)
    unfold wallCount at ih ⊢
    simp only [List.map_cons, List.sum_cons]
    omega

/-- Two storages of one shape: if every Wall cell of the first is Wall in the second, the
second has at least as many Wall cells. -/
theorem wallCount_mono {w h : Int} {g1 g2 : List (List Int)} (h1 : Shape w h g1)
    (h2 : Shape w h g2)
    (hc : ∀ x y, readCell g1 x y = some 1 → readCell g2 x y = some 1) :
    wallCount g1 ≤ wallCount g2 := by
  apply rows_count_mono g1 g2 (by rw [h1.2.2.1, h2.2.2.1])
  intro j r1 r2 hr1 hr2
  apply count_one_mono r1 r2
    (by rw [h1.2.2.2 r1 (List.getElem?_mem hr1), h2.2.2.2 r2 (List.getElem?_mem hr2)])
  intro i hi
  have := hc (i : Int) (j : Int) (by rw [readCell_natCast, hr1]; exact hi)
  rw [readCell_natCast, hr2] at this
  exact this

/-! ## Constructor -/

theorem construct_spec {R : Type} (rs : RandomSource R) (w h : Int) (seed : Nat)
    (hw : 0 ≤ w) (hh : 0 ≤ h) :
    ∃ g, construct rs w h seed = some g ∧ g.width = w ∧ g.height = h ∧
      g.rng = rs.seed seed ∧ g.WF := by
  have c : ¬ (w < 0 ∨ h < 0) := by omega
  have e : construct rs w h seed =
      some ⟨w, h, List.replicate h.toNat (List.replicate w.toNat 0), rs.seed seed⟩ := by
    simp only [construct, c, if_false]
  refine ⟨_, e, rfl, rfl, rfl, hw, hh, List.length_replicate _ _, ?_⟩
  intro row hrow
  rw [List.eq_of_mem_replicate hrow, List.length_replicate]

/-! ## Auxiliary facts -/

theorem gen_ext {R : Type} {a b : CaveGenerator R} (hw : a.width = b.width)
    (hh : a.height = b.height) (hg : a.grid = b.grid) (hr : a.rng = b.rng) : a = b := by
  cases a; cases b
  simp only [CaveGenerator.mk.injEq]
  exact ⟨hw, hh, hg, hr⟩

theorem toNat_mul_add (a b c : Int) (ha : 0 ≤ a) (hb : 0 ≤ b) (hc : 0 ≤ c) :
    (a * b + c).toNat = a.toNat * b.toNat + c.toNat := by
  obtain ⟨m, rfl⟩ := Int.eq_ofNat_of_zero_le ha
  obtain ⟨n, rfl⟩ := Int.eq_ofNat_of_zero_le hb
  obtain ⟨k, rfl⟩ := Int.eq_ofNat_of_zero_le hc
  have e : ((m : Int) * (n : Int) + (k : Int)) = ((m * n + k : Nat) : Int) := by push_cast; rfl
  rw [e]
  simp only [Int.toNat_ofNat]

theorem lowSource_intInRange : lowSource.IntInRange :=
  fun _ _ _ h => ⟨le_refl _, h⟩

theorem lowSource_realInUnit : lowSource.RealInUnit :=
  fun _ => ⟨le_refl _, zero_lt_one⟩

/-- The three stages on a well-formed grid of at least 10 by 10 with in-range integer draws
succeed and keep the dimensions. -/
theorem runStages_total {R : Type} (rs : RandomSource R) (hrs : rs.IntInRange) (p : ℚ)
    (n c : Int) (g : CaveGenerator R) (hwf : g.WF) (hw10 : 10 ≤ g.width)
    (hh10 : 10 ≤ g.height) :
    ∃ g', runStages rs p n c g = some g' ∧ g'.width = g.width ∧ g'.height = g.height ∧
      g'.WF := by
  obtain ⟨g1, h1, hw1, hh1, hwf1, _, _⟩ := initializeGrid_spec rs p g hwf
  obtain ⟨g2, h2, hw2, hh2, _, hwf2, _⟩ := smooth_spec n g1 hwf1
  obtain ⟨g3, h3, hw3, hh3, hwf3, _, _⟩ := addObstacles_spec rs hrs c g2 hwf2 (by omega)
    (by omega)
  refine ⟨g3, ?_, by omega, by omega, hwf3⟩
  simp only [runStages, h1, h2, h3, Option.bind]

/-! ## The claims -/

/-- C1: on a well-formed grid, one smoothing iteration succeeds and leaves in every interior
cell `(x, y)` (`1 ≤ x ≤ width-2`, `1 ≤ y ≤ height-2`) the value `1` when the neighbour count
`countNeighborWalls(x, y, 1)` of the grid before the iteration is at least 5, the value `0`
when that count is at most 3, and the cell's value before the iteration when the count is 4.
The count is the one of the object before the iteration. -/
theorem smooth_one_threshold_rule {R : Type} (g : CaveGenerator R) (hwf : g.WF) (x y : Int)
    (hx0 : 1 ≤ x) (hx1 : x ≤ g.width - 2) (hy0 : 1 ≤ y) (hy1 : y ≤ g.height - 2) :
    ∃ g' n, smooth 1 g = some g' ∧ countNeighborWalls g x y 1 = some n ∧
      (n ≥ 5 → readCell g'.grid x y = some 1) ∧
      (n ≤ 3 → readCell g'.grid x y = some 0) ∧
      (n = 4 → readCell g'.grid x y = readCell g.grid x y) := by
  obtain ⟨g', hrun, _, _, _, _, hin, _⟩ := smoothPass_spec g hwf
  obtain ⟨n, hn⟩ := countNeighborWalls_total g hwf x y 1
  have hc := hin x y hx0 (by omega) hy0 (by omega)
  refine ⟨g', n, by rw [smooth_one]; exact hrun, hn, ?_, ?_, ?_⟩
  · intro h5
    rw [hc]; simp [smoothTarget, hn, h5]
  · intro h3
    have h5 : ¬ n ≥ 5 := by omega
    rw [hc]; simp only [smoothTarget, hn, h5, h3, if_false, if_true]
  · intro h4
    have h5 : ¬ n ≥ 5 := by omega
    have h3 : ¬ n ≤ 3 := by omega
    rw [hc]; simp only [smoothTarget, hn, h5, h3, if_false]

theorem smooth_one_threshold_rule_witness :
    ∃ g' n, smooth 1 exampleCave = some g' ∧ countNeighborWalls exampleCave 2 2 1 = some n ∧
      (n ≥ 5 → readCell g'.grid 2 2 = some 1) ∧
      (n ≤ 3 → readCell g'.grid 2 2 = some 0) ∧
      (n = 4 → readCell g'.grid 2 2 = readCell exampleCave.grid 2 2) :=
  smooth_one_threshold_rule exampleCave (by decide) 2 2 (by decide) (by decide) (by decide)
    (by decide)

/-- C2: for every non-negative width and height, every seed, wall probability and iteration
count, construction followed by `initialize` and `smooth` succeeds, and every cell of the
grid with `x ∈ {0, width-1}` or `y ∈ {0, height-1}` is Wall after `initialize` and still Wall
after `smooth`; moreover `smooth` leaves every border cell of any well-formed grid at its
prior value. -/
theorem border_stays_wall {R : Type} (rs : RandomSource R) (w h : Int) (seed : Nat) (p : ℚ)
    (n : Int) (hw : 0 ≤ w) (hh : 0 ≤ h) :
    (∃ g0 g1 g2, construct rs w h seed = some g0 ∧ initializeGrid rs p g0 = some g1 ∧
      smooth n g1 = some g2 ∧
      ∀ x y, 0 ≤ x → x < w → 0 ≤ y → y < h → (x = 0 ∨ x = w - 1 ∨ y = 0 ∨ y = h - 1) →
        readCell g1.grid x y = some 1 ∧ readCell g2.grid x y = some 1) ∧
    (∀ g : CaveGenerator R, g.WF → ∃ g', smooth n g = some g' ∧
      ∀ x y, (x = 0 ∨ x = g.width - 1 ∨ y = 0 ∨ y = g.height - 1) →
        readCell g'.grid x y = readCell g.grid x y) := by
  constructor
  · obtain ⟨g0, h0, hw0, hh0, _, hwf0⟩ := construct_spec rs w h seed hw hh
    obtain ⟨g1, h1, hw1, hh1, hwf1, _, hc1⟩ := initializeGrid_spec rs p g0 hwf0
    obtain ⟨g2, h2, _, _, _, _, hc2⟩ := smooth_spec n g1 hwf1
    refine ⟨g0, g1, g2, h0, h1, h2, ?_⟩
    intro x y hx0 hx1 hy0 hy1 hb
    have e1 : readCell g1.grid x y = some 1 := by
      rw [hc1 x y hx0 (by omega) hy0 (by omega), hw0, hh0]
      simp only [initTarget, hb, if_true]
    refine ⟨e1, ?_⟩
    rw [hc2 x y (by omega)]; exact e1
  · intro g hwf
    obtain ⟨g', hrun, _, _, _, _, hc⟩ := smooth_spec n g hwf
    exact ⟨g', hrun, fun x y hb => hc x y (by omega)⟩

theorem border_stays_wall_witness :
    (∃ g0 g1 g2, construct lowSource 6 5 1 = some g0 ∧
      initializeGrid lowSource 0 g0 = some g1 ∧ smooth 3 g1 = some g2 ∧
      ∀ x y, 0 ≤ x → x < 6 → 0 ≤ y → y < 5 → (x = 0 ∨ x = 6 - 1 ∨ y = 0 ∨ y = 5 - 1) →
        readCell g1.grid x y = some 1 ∧ readCell g2.grid x y = some 1) ∧
    (∀ g : CaveGenerator Nat, g.WF → ∃ g', smooth 3 g = some g' ∧
      ∀ x y, (x = 0 ∨ x = g.width - 1 ∨ y = 0 ∨ y = g.height - 1) →
        readCell g'.grid x y = readCell g.grid x y) :=
  border_stays_wall lowSource 6 5 1 0 3 (by decide) (by decide)

/-- C3: on a well-formed grid and for all integers `x`, `y`, `get(x, y)` returns `1` when
`x < 0`, `x ≥ width`, `y < 0` or `y ≥ height`, and otherwise returns the stored cell
`grid[y][x]`; in both cases it returns a value (it never fails).  `get` yields a value only,
so the object is not modified. -/
theorem get_sentinel {R : Type} (g : CaveGenerator R) (hwf : g.WF) (x y : Int) :
    ((x < 0 ∨ x ≥ g.width ∨ y < 0 ∨ y ≥ g.height) → get g x y = some 1) ∧
    (¬ (x < 0 ∨ x ≥ g.width ∨ y < 0 ∨ y ≥ g.height) →
      ∃ v, readCell g.grid x y = some v ∧ get g x y = some v) := by
  constructor
  · intro hout
    simp only [get, hout, if_true]
  · intro hin
    obtain ⟨v, hv⟩ := readCell_some hwf (x := x) (y := y) (by omega) (by omega) (by omega)
      (by omega)
    exact ⟨v, hv, by simp only [get, hin, if_false, hv]⟩

theorem get_sentinel_witness :
    (((7 : Int) < 0 ∨ 7 ≥ exampleCave.width ∨ (2 : Int) < 0 ∨ 2 ≥ exampleCave.height) →
      get exampleCave 7 2 = some 1) ∧
    (¬ ((7 : Int) < 0 ∨ 7 ≥ exampleCave.width ∨ (2 : Int) < 0 ∨ 2 ≥ exampleCave.height) →
      ∃ v, readCell exampleCave.grid 7 2 = some v ∧ get exampleCave 7 2 = some v) :=
  get_sentinel exampleCave (by decide) 7 2

/-- C4: determinism.  Two runs of `initialize`, `smooth`, `addObstacles` with the same wall
probability, iteration count and obstacle count, on two well-formed objects of the same
width and height whose generators are in the same state (as after construction from the same
seed), give the same result, whatever the two grids held before: the outcome is a function
of the dimensions, the generator state and the three parameters alone.  When the grid is at
least 10 by 10 and the integer draws respect their ranges, both runs do produce a grid, the
same one. -/
theorem pipeline_deterministic {R : Type} (rs : RandomSource R) (p : ℚ) (n c : Int)
    (g1 g2 : CaveGenerator R) (h1 : g1.WF) (h2 : g2.WF) (hw : g1.width = g2.width)
    (hh : g1.height = g2.height) (hr : g1.rng = g2.rng) :
    runStages rs p n c g1 = runStages rs p n c g2 ∧
    (rs.IntInRange → 10 ≤ g1.width → 10 ≤ g1.height →
      ∃ g', runStages rs p n c g1 = some g' ∧ runStages rs p n c g2 = some g') := by
  have key : runStages rs p n c g1 = runStages rs p n c g2 := by
    obtain ⟨a, ha, haw, hah, hawf, har, hac⟩ := initializeGrid_spec rs p g1 h1
    obtain ⟨b, hb, hbw, hbh, hbwf, hbr, hbc⟩ := initializeGrid_spec rs p g2 h2
    have hs2 : Shape a.width a.height b.grid := by
      have e1 : a.width = b.width := by omega
      have e2 : a.height = b.height := by omega
      rw [e1, e2]; exact hbwf
    have hab : a = b := by
      refine gen_ext (by omega) (by omega) (shape_ext hawf hs2 ?_)
        (by rw [har, hbr, hw, hh, hr])
      intro x y hx0 hx1 hy0 hy1
      rw [hac x y hx0 (by omega) hy0 (by omega), hbc x y hx0 (by omega) hy0 (by omega), hw,
        hh, hr]
    unfold runStages
    rw [ha, hb, hab]
  refine ⟨key, fun hrs hw10 hh10 => ?_⟩
  obtain ⟨g', hrun, _⟩ := runStages_total rs hrs p n c g1 h1 hw10 hh10
  exact ⟨g', hrun, key ▸ hrun⟩

theorem pipeline_deterministic_witness :
    runStages lowSource 1 2 3 blankCave = runStages lowSource 1 2 3 solidCave ∧
    (lowSource.IntInRange → 10 ≤ blankCave.width → 10 ≤ blankCave.height →
      ∃ g', runStages lowSource 1 2 3 blankCave = some g' ∧
        runStages lowSource 1 2 3 solidCave = some g') :=
  pipeline_deterministic lowSource 1 2 3 blankCave solidCave (by decide) (by decide) rfl rfl rfl

/-- C5: zero-iteration identity: `smooth(0)` returns the object it was given, with every
cell and both dimensions unchanged. -/
theorem smooth_zero_identity {R : Type} (g : CaveGenerator R) : smooth 0 g = some g := rfl

/-- C6: obstacle monotonicity: on a well-formed grid with `width ≥ 10` and `height ≥ 10`,
for every count and every source whose integer draws respect their ranges,
`addObstacles(count)` succeeds, every cell that was Wall before the call is Wall after it,
and the number of Wall cells after the call is at least the number before. -/
theorem addObstacles_monotone {R : Type} (rs : RandomSource R) (hrs : rs.IntInRange)
    (count : Int) (g : CaveGenerator R) (hwf : g.WF) (hw10 : 10 ≤ g.width)
    (hh10 : 10 ≤ g.height) :
    ∃ g', addObstacles rs count g = some g' ∧
      (∀ x y, readCell g.grid x y = some 1 → readCell g'.grid x y = some 1) ∧
      wallCount g.grid ≤ wallCount g'.grid := by
  obtain ⟨g', hrun, hw, hh, hwf', _, hc⟩ := addObstacles_spec rs hrs count g hwf hw10 hh10
  refine ⟨g', hrun, hc, ?_⟩
  have hs : Shape g.width g.height g'.grid := by rw [← hw, ← hh]; exact hwf'
  exact wallCount_mono hwf hs hc

theorem addObstacles_monotone_witness :
    ∃ g', addObstacles lowSource 2 blankCave = some g' ∧
      (∀ x y, readCell blankCave.grid x y = some 1 → readCell g'.grid x y = some 1) ∧
      wallCount blankCave.grid ≤ wallCount g'.grid :=
  addObstacles_monotone lowSource lowSource_intInRange 2 blankCave (by decide) (by decide)
    (by decide)

/-- C7: obstacle skip policy: on a well-formed grid with `width ≥ 10` and `height ≥ 10` and
in-range integer draws, a draw `(cx, cy, size)` whose centre cell is not Open (Wall) leaves
the object unchanged; one round of the loop then only advances the generator by its three
draws and keeps the grid; and `addObstacles(count)` succeeds having made exactly
`count` rounds of three draws, skipped or not (no replacement draw). -/
theorem obstacle_skip_policy {R : Type} (rs : RandomSource R) (hrs : rs.IntInRange)
    (count : Int) (g : CaveGenerator R) (hwf : g.WF) (hw10 : 10 ≤ g.width)
    (hh10 : 10 ≤ g.height) :
    (∀ cx cy size c, readCell g.grid cx cy = some c → c ≠ 0 →
      placeObstacle cx cy size g = some g) ∧
    (∃ g', obstacleStep rs g = some g' ∧
      g'.rng = skipObstacleDraws rs g.width g.height g.rng ∧
      ∀ c, readCell g.grid (rs.uniformInt 5 (g.width - 5) g.rng).1
          (rs.uniformInt 5 (g.height - 5) (rs.uniformInt 5 (g.width - 5) g.rng).2).1 = some c →
        c ≠ 0 → g'.grid = g.grid) ∧
    (∃ g', addObstacles rs count g = some g' ∧
      g'.rng = (skipObstacleDraws rs g.width g.height)^[count.toNat] g.rng) := by
  refine ⟨?_, ?_, ?_⟩
  · intro cx cy size c hc hne
    simp only [placeObstacle, hc, hne, if_false]
  · obtain ⟨g', hrun, _, _, hr, _, _, hskip⟩ := obstacleStep_spec rs hrs g hwf hw10 hh10
    exact ⟨g', hrun, hr, hskip⟩
  · obtain ⟨g', hrun, _, _, _, hr, _⟩ := addObstacles_spec rs hrs count g hwf hw10 hh10
    exact ⟨g', hrun, hr⟩

theorem obstacle_skip_policy_witness :
    (∀ cx cy size c, readCell solidCave.grid cx cy = some c → c ≠ 0 →
      placeObstacle cx cy size solidCave = some solidCave) ∧
    (∃ g', obstacleStep lowSource solidCave = some g' ∧
      g'.rng = skipObstacleDraws lowSource solidCave.width solidCave.height solidCave.rng ∧
      ∀ c, readCell solidCave.grid (lowSource.uniformInt 5 (solidCave.width - 5) solidCave.rng).1
          (lowSource.uniformInt 5 (solidCave.height - 5)
            (lowSource.uniformInt 5 (solidCave.width - 5) solidCave.rng).2).1 = some c →
        c ≠ 0 → g'.grid = solidCave.grid) ∧
    (∃ g', addObstacles lowSource 4 solidCave = some g' ∧
      g'.rng = (skipObstacleDraws lowSource solidCave.width solidCave.height)^[(4 : Int).toNat]
        solidCave.rng) :=
  obstacle_skip_policy lowSource lowSource_intInRange 4 solidCave (by decide) (by decide)
    (by decide)

/-- C8: obstacle stamp: on a well-formed grid, for a draw with `cx` in `[5, width-5]` and `cy`
in `[5, height-5]` (so `width ≥ 10` and `height ≥ 10`), `size` in `{1, 2, 3}` and an Open
centre cell, the stamp succeeds; afterwards every cell `(x, y)` of the grid with
`(x-cx)² + (y-cy)² ≤ size²` is Wall and every cell of the grid outside that disc keeps its
previous value. -/
theorem obstacle_stamp_disc {R : Type} (g : CaveGenerator R) (hwf : g.WF) (cx cy size : Int)
    (hcx0 : 5 ≤ cx) (hcx1 : cx ≤ g.width - 5) (hcy0 : 5 ≤ cy) (hcy1 : cy ≤ g.height - 5)
    (hsize : size = 1 ∨ size = 2 ∨ size = 3) (hopen : readCell g.grid cx cy = some 0) :
    ∃ g', placeObstacle cx cy size g = some g' ∧
      (∀ x y, 0 ≤ x → x < g.width → 0 ≤ y → y < g.height →
        (x - cx) ^ 2 + (y - cy) ^ 2 ≤ size ^ 2 → readCell g'.grid x y = some 1) ∧
      (∀ x y, 0 ≤ x → x < g.width → 0 ≤ y → y < g.height →
        ¬ ((x - cx) ^ 2 + (y - cy) ^ 2 ≤ size ^ 2) →
        readCell g'.grid x y = readCell g.grid x y) := by
  obtain ⟨c, g', hc, hrun, _, _, _, _, _, hstamp⟩ := placeObstacle_spec g hwf cx cy size
    (by omega) (by omega) (by omega) (by omega) (by omega)
  have h0 : c = 0 := Option.some.inj (hc.symm.trans hopen)
  obtain ⟨hin, hout⟩ := hstamp h0
  refine ⟨g', hrun, ?_, ?_⟩
  · intro x y hx0 hx1 hy0 hy1 hd
    exact hin x y hx0 hx1 hy0 hy1 (by unfold inDisc; simpa only [sq] using hd)
  · intro x y _ _ _ _ hd
    exact hout x y (fun hc => hd (by unfold inDisc at hc; simpa only [sq] using hc))

theorem obstacle_stamp_disc_witness :
    ∃ g', placeObstacle 5 5 2 blankCave = some g' ∧
      (∀ x y, 0 ≤ x → x < blankCave.width → 0 ≤ y → y < blankCave.height →
        (x - 5) ^ 2 + (y - 5) ^ 2 ≤ (2 : Int) ^ 2 → readCell g'.grid x y = some 1) ∧
      (∀ x y, 0 ≤ x → x < blankCave.width → 0 ≤ y → y < blankCave.height →
        ¬ ((x - 5) ^ 2 + (y - 5) ^ 2 ≤ (2 : Int) ^ 2) →
        readCell g'.grid x y = readCell blankCave.grid x y) :=
  obstacle_stamp_disc blankCave (by decide) 5 5 2 (by decide) (by decide) (by decide)
    (by decide) (by decide) (by decide)

/-- C9: initializer interior rule and scan order: on a well-formed grid with `width ≥ 2` and
`height ≥ 2`, `initialize(p)` succeeds and leaves the generator in the state reached after
exactly `(width-2)*(height-2)` real draws; the interior cell `(x, y)` is Wall when the draw
number `k = (y-1)*(width-2) + (x-1)` of the stream is below `p` and Open otherwise. -/
theorem initialize_scan_order {R : Type} (rs : RandomSource R) (p : ℚ) (g : CaveGenerator R)
    (hwf : g.WF) (hw2 : 2 ≤ g.width) (hh2 : 2 ≤ g.height) :
    ∃ g', initializeGrid rs p g = some g' ∧
      g'.rng = rs.skipReal^[((g.width - 2) * (g.height - 2)).toNat] g.rng ∧
      ∀ x y, 1 ≤ x → x ≤ g.width - 2 → 1 ≤ y → y ≤ g.height - 2 →
        (rs.realDraw g.rng ((y - 1) * (g.width - 2) + (x - 1)).toNat < p →
          readCell g'.grid x y = some 1) ∧
        (¬ rs.realDraw g.rng ((y - 1) * (g.width - 2) + (x - 1)).toNat < p →
          readCell g'.grid x y = some 0) := by
  obtain ⟨g', hrun, _, _, _, hr, hc⟩ := initializeGrid_spec rs p g hwf
  refine ⟨g', hrun, ?_, ?_⟩
  · have e := toNat_mul_add (g.height - 2) (g.width - 2) 0 (by omega) (by omega) (le_refl 0)
    have e' : ((g.width - 2) * (g.height - 2)).toNat =
        (g.height - 2).toNat * (g.width - 2).toNat := by
      rw [mul_comm, ← add_zero ((g.height - 2) * (g.width - 2)), e]; simp
    rw [hr, e']
  · intro x y hx0 hx1 hy0 hy1
    have hb : ¬ (x = 0 ∨ x = g.width - 1 ∨ y = 0 ∨ y = g.height - 1) := by omega
    have ek : ((y - 1) * (g.width - 2) + (x - 1)).toNat = interiorIndex g.width x y :=
      toNat_mul_add (y - 1) (g.width - 2) (x - 1) (by omega) (by omega) (by omega)
    have hcell := hc x y (by omega) (by omega) (by omega) (by omega)
    rw [ek, hcell]
    constructor
    · intro hlt
      simp only [initTarget, hb, hlt, if_false, if_true]
    · intro hlt
      simp only [initTarget, hb, hlt, if_false]

theorem initialize_scan_order_witness :
    ∃ g', initializeGrid lowSource 1 blankCave = some g' ∧
      g'.rng = lowSource.skipReal^[((blankCave.width - 2) * (blankCave.height - 2)).toNat]
        blankCave.rng ∧
      ∀ x y, 1 ≤ x → x ≤ blankCave.width - 2 → 1 ≤ y → y ≤ blankCave.height - 2 →
        (lowSource.realDraw blankCave.rng ((y - 1) * (blankCave.width - 2) + (x - 1)).toNat < 1 →
          readCell g'.grid x y = some 1) ∧
        (¬ lowSource.realDraw blankCave.rng
            ((y - 1) * (blankCave.width - 2) + (x - 1)).toNat < 1 →
          readCell g'.grid x y = some 0) :=
  initialize_scan_order lowSource 1 blankCave (by decide) (by decide) (by decide)

/-- C10, as the code behaves: a width and a height of zero are accepted by the constructor,
and `initialize` with wall probability 2, outside `[0, 1]`, succeeds on a 3 by 3 grid and
rewrites all nine cells. -/
theorem invalid_parameters_accepted :
    construct lowSource 0 0 1 = some ⟨0, 0, [], 1⟩ ∧
    construct lowSource 3 3 1 = some ⟨3, 3, [[0, 0, 0], [0, 0, 0], [0, 0, 0]], 1⟩ ∧
    initializeGrid lowSource 2 ⟨3, 3, [[0, 0, 0], [0, 0, 0], [0, 0, 0]], 1⟩ =
      some ⟨3, 3, [[1, 1, 1], [1, 1, 1], [1, 1, 1]], 2⟩ := by
  decide

/-- C10 amended: parameters are not validated.  A negative width or height makes the
constructor fail; a non-negative width and height, zero included, are accepted and give a
well-formed grid of Open cells; `initialize` on a well-formed grid succeeds for every wall
probability, and with draws in `[0, 1)` a probability below 0 leaves every interior cell Open
and a probability above 1 leaves every interior cell Wall. -/
theorem parameters_not_validated {R : Type} (rs : RandomSource R) (hrs : rs.RealInUnit)
    (seed : Nat) :
    (∀ w h : Int, (w < 0 ∨ h < 0) → construct rs w h seed = none) ∧
    (∀ w h : Int, 0 ≤ w → 0 ≤ h → ∃ g, construct rs w h seed = some g ∧ g.WF ∧
      ∀ x y, 0 ≤ x → x < w → 0 ≤ y → y < h → readCell g.grid x y = some 0) ∧
    (∀ (g : CaveGenerator R) (p : ℚ), g.WF → ∃ g', initializeGrid rs p g = some g' ∧
      ∀ x y, 1 ≤ x → x ≤ g.width - 2 → 1 ≤ y → y ≤ g.height - 2 →
        (p < 0 → readCell g'.grid x y = some 0) ∧ (1 < p → readCell g'.grid x y = some 1)) := by
  refine ⟨?_, ?_, ?_⟩
  · intro w h hneg
    simp only [construct, hneg, if_true]
  · intro w h hw hh
    obtain ⟨g, hg, hgw, hgh, _, hwf⟩ := construct_spec rs w h seed hw hh
    refine ⟨g, hg, hwf, ?_⟩
    intro x y hx0 hx1 hy0 hy1
    have c : ¬ (w < 0 ∨ h < 0) := by omega
    have e : g.grid = List.replicate h.toNat (List.replicate w.toNat 0) := by
      simp only [construct, c, if_false] at hg
      rw [← Option.some.inj hg]
    have c2 : ¬ (x < 0 ∨ y < 0) := by omega
    have hy : y.toNat < h.toNat := by omega
    have hx : x.toNat < w.toNat := by omega
    simp only [e, readCell, c2, if_false, List.getElem?_replicate, hy, hx, if_true]
  · intro g p hwf
    obtain ⟨g', hrun, _, _, _, _, hc⟩ := initializeGrid_spec rs p g hwf
    refine ⟨g', hrun, ?_⟩
    intro x y hx0 hx1 hy0 hy1
    have hb : ¬ (x = 0 ∨ x = g.width - 1 ∨ y = 0 ∨ y = g.height - 1) := by omega
    have hd := hrs (rs.skipReal^[interiorIndex g.width x y] g.rng)
    rw [hc x y (by omega) (by omega) (by omega) (by omega)]
    constructor
    · intro hp
      have hlt : ¬ rs.realDraw g.rng (interiorIndex g.width x y) < p := by
        unfold RandomSource.realDraw; intro hc'; linarith [hd.1]
      simp only [initTarget, hb, hlt, if_false]
    · intro hp
      have hlt : rs.realDraw g.rng (interiorIndex g.width x y) < p := by
        unfold RandomSource.realDraw; linarith [hd.2]
      simp only [initTarget, hb, hlt, if_false, if_true]

theorem parameters_not_validated_witness :
    (∀ w h : Int, (w < 0 ∨ h < 0) → construct lowSource w h 7 = none) ∧
    (∀ w h : Int, 0 ≤ w → 0 ≤ h → ∃ g, construct lowSource w h 7 = some g ∧ g.WF ∧
      ∀ x y, 0 ≤ x → x < w → 0 ≤ y → y < h → readCell g.grid x y = some 0) ∧
    (∀ (g : CaveGenerator Nat) (p : ℚ), g.WF → ∃ g', initializeGrid lowSource p g = some g' ∧
      ∀ x y, 1 ≤ x → x ≤ g.width - 2 → 1 ≤ y → y ≤ g.height - 2 →
        (p < 0 → readCell g'.grid x y = some 0) ∧ (1 < p → readCell g'.grid x y = some 1)) :=
  parameters_not_validated lowSource lowSource_realInUnit 7

/-! ## Composition of loops -/

theorem forLoop_add {σ : Type} (body : Int → σ → Option σ) :
    ∀ (m n : Nat) (i : Int) (s : σ),
      forLoop body (m + n) i s = (forLoop body m i s).bind (forLoop body n (i + m)) := by
  intro m
  induction m with
  | zero =>
    intro n i s
    simp [forLoop]
  | succ m ih =>
    intro n i s
    have e : m + 1 + n = (m + n) + 1 := by omega
    rw [e]
    simp only [forLoop]
    cases body i s with
    | none => rfl
    | some t =>
      have e2 : i + ((m + 1 : Nat) : Int) = i + 1 + (m : Int) := by push_cast; ring
      show forLoop body (m + n) (i + 1) t =
        (forLoop body m (i + 1) t).bind (forLoop body n (i + ((m + 1 : Nat) : Int)))
      rw [ih n (i + 1) t, e2]

theorem forLoop_index_free {σ : Type} (f : σ → Option σ) :
    ∀ (n : Nat) (i j : Int) (s : σ),
      forLoop (fun _ t => f t) n i s = forLoop (fun _ t => f t) n j s := by
  intro n
  induction n with
  | zero => intro i j s; rfl
  | succ n ih =>
    intro i j s
    simp only [forLoop]
    cases f s with
    | none => rfl
    | some t => exact ih (i + 1) (j + 1) t

theorem iterate_bind_none {σ : Type} (f : σ → Option σ) (n : Nat) :
    (fun o : Option σ => o.bind f)^[n] none = none := by
  induction n with
  | zero => rfl
  | succ n ih => rw [Function.iterate_succ_apply]; exact ih

theorem forLoop_eq_iterate {σ : Type} (f : σ → Option σ) :
    ∀ (n : Nat) (i : Int) (s : σ),
      forLoop (fun _ t => f t) n i s = (fun o : Option σ => o.bind f)^[n] (some s) := by
  intro n
  induction n with
  | zero => intro i s; rfl
  | succ n ih =>
    intro i s
    rw [Function.iterate_succ_apply]
    simp only [forLoop, Option.bind]
    cases f s with
    | none => exact (iterate_bind_none f n).symm
    | some t => exact ih (i + 1) t

/-- C18: iterations compose.  For all `a, b ≥ 0`, `smooth(a + b)` is `smooth(a)` followed by
`smooth(b)` (failure of the first part included); `smooth(n)` is the `n`-fold iterate of
`smooth(1)`; and `smooth(n)` with `n ≤ 0` returns the object as it is. -/
theorem smooth_iterations_compose {R : Type} (g : CaveGenerator R) :
    (∀ a b : Int, 0 ≤ a → 0 ≤ b → smooth (a + b) g = (smooth a g).bind (smooth b)) ∧
    (∀ n : Int, smooth n g = (fun o : Option (CaveGenerator R) => o.bind (smooth 1))^[n.toNat]
      (some g)) ∧
    (∀ n : Int, n ≤ 0 → smooth n g = some g) := by
  refine ⟨?_, ?_, ?_⟩
  · intro a b ha hb
    have e : (a + b - 0).toNat = (a - 0).toNat + (b - 0).toNat := by omega
    simp only [smooth, forRange, e, forLoop_add]
    cases h : forLoop (fun _ g1 => smoothPass g1) (a - 0).toNat 0 g with
    | none => rfl
    | some t =>
      simp only [Option.bind]
      exact forLoop_index_free smoothPass _ _ _ t
  · intro n
    have e1 : (fun g1 : CaveGenerator R => smooth 1 g1) = smoothPass := funext smooth_one
    have e2 : (n - 0).toNat = n.toNat := by omega
    show forLoop (fun _ g1 => smoothPass g1) (n - 0).toNat 0 g = _
    rw [e2, forLoop_eq_iterate smoothPass n.toNat 0 g]
    have e3 : (fun o : Option (CaveGenerator R) => o.bind (smooth 1)) =
        (fun o : Option (CaveGenerator R) => o.bind smoothPass) := by
      funext o; rw [← e1]
    rw [e3]
  · intro n hn
    exact forRange_empty 0 n _ g hn

theorem smooth_iterations_compose_witness :
    (∀ a b : Int, 0 ≤ a → 0 ≤ b →
      smooth (a + b) exampleCave = (smooth a exampleCave).bind (smooth b)) ∧
    (∀ n : Int, smooth n exampleCave =
      (fun o : Option (CaveGenerator Nat) => o.bind (smooth 1))^[n.toNat] (some exampleCave)) ∧
    (∀ n : Int, n ≤ 0 → smooth n exampleCave = some exampleCave) :=
  smooth_iterations_compose exampleCave

/-- C11: bounds safety of `get`.  On a grid whose storage has `height` rows of `width` cells,
for all integer coordinates, `get(x, y)` never takes the out-of-range branch of the read:
it returns a value, and when the guard lets the read happen the indices satisfy
`0 ≤ y < height`, `0 ≤ x < width`, row `y` exists in the storage and has a cell `x`. -/
theorem get_bounds_safe {R : Type} (g : CaveGenerator R) (hwf : g.WF) (x y : Int) :
    get g x y ≠ none ∧
    (¬ (x < 0 ∨ x ≥ g.width ∨ y < 0 ∨ y ≥ g.height) →
      0 ≤ y ∧ y < g.height ∧ 0 ≤ x ∧ x < g.width ∧ y.toNat < g.grid.length ∧
        ∃ row, g.grid[y.toNat]? = some row ∧ x.toNat < row.length ∧
          get g x y = row[x.toNat]?) := by
  obtain ⟨_, _, hlen, hrows⟩ := hwf
  by_cases hout : x < 0 ∨ x ≥ g.width ∨ y < 0 ∨ y ≥ g.height
  · refine ⟨?_, fun h => absurd hout h⟩
    simp only [get, hout, if_true]
    exact Option.some_ne_none 1
  · have hy : y.toNat < g.grid.length := by omega
    have hrow := hrows _ (List.getElem_mem hy)
    have hx : x.toNat < (g.grid[y.toNat]).length := by omega
    have c : ¬ (x < 0 ∨ y < 0) := by omega
    have hget : get g x y = (g.grid[y.toNat])[x.toNat]? := by
      simp only [get, hout, if_false, readCell, c, List.getElem?_eq_getElem hy]
    refine ⟨?_, fun _ => ⟨by omega, by omega, by omega, by omega, hy, g.grid[y.toNat],
      List.getElem?_eq_getElem hy, hx, hget⟩⟩
    rw [hget, List.getElem?_eq_getElem hx]
    exact Option.some_ne_none _

theorem get_bounds_safe_witness :
    get exampleCave 3 (-2) ≠ none ∧
    (¬ ((3 : Int) < 0 ∨ 3 ≥ exampleCave.width ∨ (-2 : Int) < 0 ∨ -2 ≥ exampleCave.height) →
      0 ≤ (-2 : Int) ∧ -2 < exampleCave.height ∧ 0 ≤ (3 : Int) ∧ 3 < exampleCave.width ∧
        (-2 : Int).toNat < exampleCave.grid.length ∧
        ∃ row, exampleCave.grid[(-2 : Int).toNat]? = some row ∧ (3 : Int).toNat < row.length ∧
          get exampleCave 3 (-2) = row[(3 : Int).toNat]?) :=
  get_bounds_safe exampleCave (by decide) 3 (-2)

/-- C12: pipeline order and defaults.  `generate()` is `initialize` with the literal `0.45f`
(the binary32 value nearest to 0.45), then `smooth(5)`, then `addObstacles(8)`, each on the
object left by the previous stage.  On a well-formed grid of at least 10 by 10 with in-range
integer draws the three stages succeed; `initialize` makes the first
`(height-2)*(width-2)` real draws, `smooth` leaves the generator untouched and
`addObstacles` continues from that state with its 8 rounds of three draws. -/
theorem generate_pipeline_order {R : Type} (rs : RandomSource R) (g : CaveGenerator R) :
    generate rs g = (initializeGrid rs defaultWallProbability g).bind
      (fun g1 => (smooth 5 g1).bind (fun g2 => addObstacles rs 8 g2)) ∧
    |defaultWallProbability - 45 / 100| ≤ 1 / 2 ^ 26 ∧
    (rs.IntInRange → g.WF → 10 ≤ g.width → 10 ≤ g.height →
      ∃ g1 g2 g3, initializeGrid rs defaultWallProbability g = some g1 ∧
        smooth 5 g1 = some g2 ∧ addObstacles rs 8 g2 = some g3 ∧ generate rs g = some g3 ∧
        g1.rng = rs.skipReal^[(g.height - 2).toNat * (g.width - 2).toNat] g.rng ∧
        g2.rng = g1.rng ∧
        g3.rng = (skipObstacleDraws rs g.width g.height)^[8] g2.rng) := by
  refine ⟨rfl, ?_, ?_⟩
  · unfold defaultWallProbability
    rw [abs_le]
    constructor <;> norm_num
  · intro hrs hwf hw10 hh10
    obtain ⟨g1, h1, hw1, hh1, hwf1, hr1, _⟩ :=
      initializeGrid_spec rs defaultWallProbability g hwf
    obtain ⟨g2, h2, hw2, hh2, hr2, hwf2, _⟩ := smooth_spec 5 g1 hwf1
    obtain ⟨g3, h3, _, _, _, hr3, _⟩ := addObstacles_spec rs hrs 8 g2 hwf2 (by omega)
      (by omega)
    refine ⟨g1, g2, g3, h1, h2, h3, ?_, hr1, hr2, ?_⟩
    · simp only [generate, h1, h2, h3, Option.bind]
    · rw [hr3, hw2, hh2, hw1, hh1]; rfl

theorem generate_pipeline_order_witness :
    generate lowSource blankCave = (initializeGrid lowSource defaultWallProbability blankCave).bind
      (fun g1 => (smooth 5 g1).bind (fun g2 => addObstacles lowSource 8 g2)) ∧
    |defaultWallProbability - 45 / 100| ≤ 1 / 2 ^ 26 ∧
    (lowSource.IntInRange → blankCave.WF → 10 ≤ blankCave.width → 10 ≤ blankCave.height →
      ∃ g1 g2 g3, initializeGrid lowSource defaultWallProbability blankCave = some g1 ∧
        smooth 5 g1 = some g2 ∧ addObstacles lowSource 8 g2 = some g3 ∧
        generate lowSource blankCave = some g3 ∧
        g1.rng = lowSource.skipReal^[(blankCave.height - 2).toNat * (blankCave.width - 2).toNat]
          blankCave.rng ∧
        g2.rng = g1.rng ∧
        g3.rng = (skipObstacleDraws lowSource blankCave.width blankCave.height)^[8] g2.rng) :=
  generate_pipeline_order lowSource blankCave

/-- C14: dimensions are fixed.  The constructor yields `height` rows of `width` cells each;
`initialize`, `smooth` and `addObstacles` (on a grid of at least 10 by 10 with in-range
draws) succeed and keep the number of rows, the length `width` of every row and the values of
`getWidth()` and `getHeight()`. -/
theorem dimensions_fixed {R : Type} (rs : RandomSource R) (hrs : rs.IntInRange) :
    (∀ (w h : Int) (seed : Nat), 0 ≤ w → 0 ≤ h → ∃ g, construct rs w h seed = some g ∧
      getWidth g = w ∧ getHeight g = h ∧ (getGrid g).length = h.toNat ∧
      ∀ row ∈ getGrid g, row.length = w.toNat) ∧
    (∀ (g : CaveGenerator R), g.WF →
      (∀ p, ∃ g', initializeGrid rs p g = some g' ∧ getWidth g' = getWidth g ∧
        getHeight g' = getHeight g ∧ (getGrid g').length = (getGrid g).length ∧
        ∀ row ∈ getGrid g', row.length = (getWidth g).toNat) ∧
      (∀ n, ∃ g', smooth n g = some g' ∧ getWidth g' = getWidth g ∧
        getHeight g' = getHeight g ∧ (getGrid g').length = (getGrid g).length ∧
        ∀ row ∈ getGrid g', row.length = (getWidth g).toNat) ∧
      (10 ≤ g.width → 10 ≤ g.height → ∀ n, ∃ g', addObstacles rs n g = some g' ∧
        getWidth g' = getWidth g ∧ getHeight g' = getHeight g ∧
        (getGrid g').length = (getGrid g).length ∧
        ∀ row ∈ getGrid g', row.length = (getWidth g).toNat)) := by
  have pack : ∀ (g g' : CaveGenerator R), g.WF → g'.WF → g'.width = g.width →
      g'.height = g.height → getWidth g' = getWidth g ∧ getHeight g' = getHeight g ∧
        (getGrid g').length = (getGrid g).length ∧
        ∀ row ∈ getGrid g', row.length = (getWidth g).toNat := by
    intro g g' hwf hwf' hw hh
    refine ⟨hw, hh, ?_, ?_⟩
    · show g'.grid.length = g.grid.length
      rw [hwf'.2.2.1, hwf.2.2.1, hh]
    · intro row hrow
      show row.length = g.width.toNat
      rw [← hw]; exact hwf'.2.2.2 row hrow
  refine ⟨?_, ?_⟩
  · intro w h seed hw hh
    obtain ⟨g, hg, hgw, hgh, _, hwf⟩ := construct_spec rs w h seed hw hh
    refine ⟨g, hg, hgw, hgh, ?_, ?_⟩
    · show g.grid.length = h.toNat
      rw [hwf.2.2.1, hgh]
    · intro row hrow
      rw [← hgw]; exact hwf.2.2.2 row hrow
  · intro g hwf
    refine ⟨?_, ?_, ?_⟩
    · intro p
      obtain ⟨g', hrun, hw, hh, hwf', _, _⟩ := initializeGrid_spec rs p g hwf
      exact ⟨g', hrun, pack g g' hwf hwf' hw hh⟩
    · intro n
      obtain ⟨g', hrun, hw, hh, _, hwf', _⟩ := smooth_spec n g hwf
      exact ⟨g', hrun, pack g g' hwf hwf' hw hh⟩
    · intro hw10 hh10 n
      obtain ⟨g', hrun, hw, hh, hwf', _, _⟩ := addObstacles_spec rs hrs n g hwf hw10 hh10
      exact ⟨g', hrun, pack g g' hwf hwf' hw hh⟩

theorem dimensions_fixed_witness :
    (∀ (w h : Int) (seed : Nat), 0 ≤ w → 0 ≤ h → ∃ g, construct lowSource w h seed = some g ∧
      getWidth g = w ∧ getHeight g = h ∧ (getGrid g).length = h.toNat ∧
      ∀ row ∈ getGrid g, row.length = w.toNat) ∧
    (∀ (g : CaveGenerator Nat), g.WF →
      (∀ p, ∃ g', initializeGrid lowSource p g = some g' ∧ getWidth g' = getWidth g ∧
        getHeight g' = getHeight g ∧ (getGrid g').length = (getGrid g).length ∧
        ∀ row ∈ getGrid g', row.length = (getWidth g).toNat) ∧
      (∀ n, ∃ g', smooth n g = some g' ∧ getWidth g' = getWidth g ∧
        getHeight g' = getHeight g ∧ (getGrid g').length = (getGrid g).length ∧
        ∀ row ∈ getGrid g', row.length = (getWidth g).toNat) ∧
      (10 ≤ g.width → 10 ≤ g.height → ∀ n, ∃ g', addObstacles lowSource n g = some g' ∧
        getWidth g' = getWidth g ∧ getHeight g' = getHeight g ∧
        (getGrid g').length = (getGrid g).length ∧
        ∀ row ∈ getGrid g', row.length = (getWidth g).toNat)) :=
  dimensions_fixed lowSource lowSource_intInRange

/-! ## Binary cells -/

theorem binary_iff_cells (grid : List (List Int)) :
    Binary grid ↔ ∀ x y v, readCell grid x y = some v → v = 0 ∨ v = 1 := by
  constructor
  · intro hb x y v h
    unfold readCell at h
    by_cases c : x < 0 ∨ y < 0
    · simp only [c, if_true] at h; cases h
    · simp only [c, if_false] at h
      cases hrow : grid[y.toNat]? with
      | none => rw [hrow] at h; cases h
      | some row =>
        rw [hrow] at h
        exact hb row (List.getElem?_mem hrow) v (List.getElem?_mem h)
  · intro hc row hrow v hv
    obtain ⟨j, hj⟩ := List.mem_iff_getElem?.1 hrow
    obtain ⟨i, hi⟩ := List.mem_iff_getElem?.1 hv
    exact hc (i : Int) (j : Int) v (by rw [readCell_natCast, hj]; exact hi)

/-- One generation leaves in every cell `0`, `1` or the value the cell had. -/
theorem smoothPass_cells {R : Type} (g : CaveGenerator R) (hwf : g.WF) :
    ∃ g', smoothPass g = some g' ∧ g'.width = g.width ∧ g'.height = g.height ∧ g'.WF ∧
      ∀ x y v, readCell g'.grid x y = some v →
        v = 0 ∨ v = 1 ∨ readCell g.grid x y = some v := by
  obtain ⟨g', hrun, hw, hh, _, hwf', hin, hout⟩ := smoothPass_spec g hwf
  refine ⟨g', hrun, hw, hh, hwf', ?_⟩
  intro x y v hv
  by_cases hi : 1 ≤ x ∧ x < g.width - 1 ∧ 1 ≤ y ∧ y < g.height - 1
  · rw [hin x y hi.1 hi.2.1 hi.2.2.1 hi.2.2.2] at hv
    obtain ⟨n, hn⟩ := countNeighborWalls_total g hwf x y 1
    simp only [smoothTarget, hn] at hv
    by_cases h5 : n ≥ 5
    · simp only [h5, if_true] at hv
      exact Or.inr (Or.inl (Option.some.inj hv).symm)
    · by_cases h3 : n ≤ 3
      · simp only [h5, h3, if_false, if_true] at hv
        exact Or.inl (Option.some.inj hv).symm
      · simp only [h5, h3, if_false] at hv
        exact Or.inr (Or.inr hv)
  · rw [hout x y hi] at hv
    exact Or.inr (Or.inr hv)

/-- A property of well-formed objects that one generation carries is carried by `smooth`. -/
theorem smooth_preserves {R : Type} (P : CaveGenerator R → Prop)
    (hstep : ∀ g1 g2, g1.WF → P g1 → smoothPass g1 = some g2 → P g2) (n : Int)
    (g : CaveGenerator R) (hwf : g.WF) (hP : P g) :
    ∃ g', smooth n g = some g' ∧ g'.WF ∧ P g' := by
  obtain ⟨g', hrun, hI⟩ := forRange_inv 0 n (fun _ g1 => smoothPass g1)
    (fun _ g1 => g1.WF ∧ P g1) g ⟨hwf, hP⟩
    (fun _ g1 _ _ hinv => by
      obtain ⟨g2, hrun2, _, _, _, hwf2, _⟩ := smoothPass_spec g1 hinv.1
      exact ⟨g2, hrun2, hwf2, hstep g1 g2 hinv.1 hinv.2 hrun2⟩)
  exact ⟨g', hrun, hI⟩

/-- The stamp of one obstacle leaves in every cell `1` or the value the cell had. -/
theorem placeObstacle_cells {R : Type} (g : CaveGenerator R) (hwf : g.WF) (cx cy size : Int)
    (hcx0 : 0 ≤ cx) (hcx1 : cx < g.width) (hcy0 : 0 ≤ cy) (hcy1 : cy < g.height)
    (hsize : 0 ≤ size) :
    ∃ g', placeObstacle cx cy size g = some g' ∧ g'.width = g.width ∧
      g'.height = g.height ∧ g'.WF ∧
      ∀ x y v, readCell g'.grid x y = some v → v = 1 ∨ readCell g.grid x y = some v := by
  obtain ⟨c, g', _, hrun, hw, hh, _, hwf', hskip, hstamp⟩ :=
    placeObstacle_spec g hwf cx cy size hcx0 hcx1 hcy0 hcy1 hsize
  refine ⟨g', hrun, hw, hh, hwf', ?_⟩
  intro x y v hv
  by_cases h0 : c = 0
  · obtain ⟨hin, hout⟩ := hstamp h0
    by_cases hd : inDisc size (x - cx) (y - cy)
    · by_cases hb : x < 0 ∨ g'.width ≤ x ∨ y < 0 ∨ g'.height ≤ y
      · rw [readCell_none hwf' hb] at hv; cases hv
      · rw [hin x y (by omega) (by omega) (by omega) (by omega) hd] at hv
        exact Or.inl (Option.some.inj hv).symm
    · rw [hout x y hd] at hv; exact Or.inr hv
  · rw [hskip h0] at hv; exact Or.inr hv

/-- One round of the loop of `addObstacles` leaves in every cell `1` or its old value. -/
theorem obstacleStep_cells {R : Type} (rs : RandomSource R) (hrs : rs.IntInRange)
    (g : CaveGenerator R) (hwf : g.WF) (hw10 : 10 ≤ g.width) (hh10 : 10 ≤ g.height) :
    ∃ g', obstacleStep rs g = some g' ∧ g'.width = g.width ∧ g'.height = g.height ∧ g'.WF ∧
      ∀ x y v, readCell g'.grid x y = some v → v = 1 ∨ readCell g.grid x y = some v := by
  have hX := hrs 5 (g.width - 5) g.rng (by omega)
  have hY := hrs 5 (g.height - 5) (rs.uniformInt 5 (g.width - 5) g.rng).2 (by omega)
  have hS := hrs 1 3 (rs.uniformInt 5 (g.height - 5)
    (rs.uniformInt 5 (g.width - 5) g.rng).2).2 (by omega)
  exact placeObstacle_cells
    { g with rng := skipObstacleDraws rs g.width g.height g.rng } hwf
    (rs.uniformInt 5 (g.width - 5) g.rng).1
    (rs.uniformInt 5 (g.height - 5) (rs.uniformInt 5 (g.width - 5) g.rng).2).1
    (rs.uniformInt 1 3 (rs.uniformInt 5 (g.height - 5)
      (rs.uniformInt 5 (g.width - 5) g.rng).2).2).1
    (by omega) (by show _ < g.width; omega) (by omega) (by show _ < g.height; omega) (by omega)

/-- A property of well-formed objects of fixed dimensions that one round of the loop of
`addObstacles` carries is carried by `addObstacles`. -/
theorem addObstacles_preserves {R : Type} (rs : RandomSource R) (hrs : rs.IntInRange)
    (P : CaveGenerator R → Prop)
    (hstep : ∀ g1 g2, g1.WF → P g1 → obstacleStep rs g1 = some g2 → P g2) (n : Int)
    (g : CaveGenerator R) (hwf : g.WF) (hw10 : 10 ≤ g.width) (hh10 : 10 ≤ g.height)
    (hP : P g) :
    ∃ g', addObstacles rs n g = some g' ∧ g'.WF ∧ P g' := by
  obtain ⟨g', hrun, _, _, hwf', hp'⟩ := forRange_inv 0 n (fun _ g1 => obstacleStep rs g1)
    (fun _ g1 => g1.width = g.width ∧ g1.height = g.height ∧ g1.WF ∧ P g1) g
    ⟨rfl, rfl, hwf, hP⟩
    (fun _ g1 _ _ hinv => by
      obtain ⟨hw1, hh1, hwf1, hp1⟩ := hinv
      obtain ⟨g2, hrun2, hw2, hh2, hwf2, _⟩ := obstacleStep_cells rs hrs g1 hwf1 (by omega)
        (by omega)
      exact ⟨g2, hrun2, by omega, by omega, hwf2, hstep g1 g2 hwf1 hp1 hrun2⟩)
  exact ⟨g', by rw [addObstacles_eq_loop rs n g hw10 hh10]; exact hrun, hwf', hp'⟩

theorem initializeGrid_binary {R : Type} (rs : RandomSource R) (p : ℚ) (g : CaveGenerator R)
    (hwf : g.WF) : ∃ g', initializeGrid rs p g = some g' ∧ g'.WF ∧ Binary g'.grid := by
  obtain ⟨g', hrun, hw, hh, hwf', _, hc⟩ := initializeGrid_spec rs p g hwf
  refine ⟨g', hrun, hwf', (binary_iff_cells _).2 ?_⟩
  intro x y v hv
  by_cases hb : x < 0 ∨ g'.width ≤ x ∨ y < 0 ∨ g'.height ≤ y
  · rw [readCell_none hwf' hb] at hv; cases hv
  · rw [hc x y (by omega) (by omega) (by omega) (by omega)] at hv
    have e := (Option.some.inj hv).symm
    rw [e]; unfold initTarget
    split_ifs <;> simp

theorem smooth_binary {R : Type} (n : Int) (g : CaveGenerator R) (hwf : g.WF)
    (hb : Binary g.grid) : ∃ g', smooth n g = some g' ∧ g'.WF ∧ Binary g'.grid := by
  apply smooth_preserves (fun g1 => Binary g1.grid) _ n g hwf hb
  intro g1 g2 hwf1 hb1 hrun
  obtain ⟨g2', hrun', _, _, _, hcells⟩ := smoothPass_cells g1 hwf1
  have e : g2 = g2' := Option.some.inj (hrun.symm.trans hrun')
  rw [e]
  refine (binary_iff_cells _).2 (fun x y v hv => ?_)
  rcases hcells x y v hv with h | h | h
  · exact Or.inl h
  · exact Or.inr h
  · exact (binary_iff_cells _).1 hb1 x y v h

theorem addObstacles_binary {R : Type} (rs : RandomSource R) (hrs : rs.IntInRange) (n : Int)
    (g : CaveGenerator R) (hwf : g.WF) (hw10 : 10 ≤ g.width) (hh10 : 10 ≤ g.height)
    (hb : Binary g.grid) : ∃ g', addObstacles rs n g = some g' ∧ g'.WF ∧ Binary g'.grid := by
  apply addObstacles_preserves rs hrs (fun g1 => g1.width = g.width ∧ g1.height = g.height ∧
    Binary g1.grid) _ n g hwf hw10 hh10 ⟨rfl, rfl, hb⟩ |> fun ⟨g', h1, h2, h3⟩ =>
      ⟨g', h1, h2, h3.2.2⟩
  intro g1 g2 hwf1 hp1 hrun
  obtain ⟨g2', hrun', hw', hh', _, hcells⟩ := obstacleStep_cells rs hrs g1 hwf1 (by omega)
    (by omega)
  have e : g2 = g2' := Option.some.inj (hrun.symm.trans hrun')
  rw [e]
  refine ⟨by omega, by omega, (binary_iff_cells _).2 (fun x y v hv => ?_)⟩
  rcases hcells x y v hv with h | h
  · exact Or.inr h
  · exact (binary_iff_cells _).1 hp1.2.2 x y v h

theorem get_binary {R : Type} (g : CaveGenerator R) (hwf : g.WF) (hb : Binary g.grid)
    (x y : Int) : get g x y = some 0 ∨ get g x y = some 1 := by
  by_cases hout : x < 0 ∨ x ≥ g.width ∨ y < 0 ∨ y ≥ g.height
  · exact Or.inr (by simp only [get, hout, if_true])
  · obtain ⟨v, hv⟩ := readCell_some hwf (x := x) (y := y) (by omega) (by omega) (by omega)
      (by omega)
    have hg : get g x y = some v := by simp only [get, hout, if_false, hv]
    rcases (binary_iff_cells _).1 hb x y v hv with h | h
    · exact Or.inl (by rw [hg, h])
    · exact Or.inr (by rw [hg, h])

theorem reachable_binary {R : Type} (rs : RandomSource R) (hrs : rs.IntInRange)
    (g : CaveGenerator R) (hr : Reachable rs g) : g.WF ∧ Binary g.grid := by
  induction hr with
  | fresh w h seed g hc =>
    by_cases c : w < 0 ∨ h < 0
    · simp only [construct, c, if_true] at hc; cases hc
    · obtain ⟨g', hg', _, _, _, hwf⟩ := construct_spec rs w h seed (by omega) (by omega)
      have e : g = g' := Option.some.inj (hc.symm.trans hg')
      refine ⟨e ▸ hwf, ?_⟩
      simp only [construct, c, if_false] at hc
      rw [← Option.some.inj hc]
      intro row hrow v hv
      rw [List.eq_of_mem_replicate hrow] at hv
      exact Or.inl (List.eq_of_mem_replicate hv)
  | afterInit p g g' _ hrun ih =>
    obtain ⟨g'', hrun', hwf', hb'⟩ := initializeGrid_binary rs p g ih.1
    have e : g' = g'' := Option.some.inj (hrun.symm.trans hrun')
    rw [e]; exact ⟨hwf', hb'⟩
  | afterSmooth n g g' _ hrun ih =>
    obtain ⟨g'', hrun', hwf', hb'⟩ := smooth_binary n g ih.1 ih.2
    have e : g' = g'' := Option.some.inj (hrun.symm.trans hrun')
    rw [e]; exact ⟨hwf', hb'⟩
  | afterObstacles n g g' _ hw10 hh10 hrun ih =>
    obtain ⟨g'', hrun', hwf', hb'⟩ := addObstacles_binary rs hrs n g ih.1 hw10 hh10 ih.2
    have e : g' = g'' := Option.some.inj (hrun.symm.trans hrun')
    rw [e]; exact ⟨hwf', hb'⟩

/-- C13: cell values are binary.  The constructor creates a grid whose cells are all `0`;
on a well-formed grid whose cells are all in `{0, 1}`, `initialize`, `smooth` (any iteration
count) and `addObstacles` (width and height at least 10, in-range draws) succeed and leave a
grid whose cells are all in `{0, 1}`; hence on every object reachable from construction
through these operations `get` returns `0` or `1` at every coordinate. -/
theorem cells_stay_binary {R : Type} (rs : RandomSource R) (hrs : rs.IntInRange) :
    (∀ (w h : Int) (seed : Nat), 0 ≤ w → 0 ≤ h → ∃ g, construct rs w h seed = some g ∧
      ∀ row ∈ g.grid, ∀ v ∈ row, v = 0) ∧
    (∀ g : CaveGenerator R, g.WF → Binary g.grid →
      (∀ p, ∃ g', initializeGrid rs p g = some g' ∧ Binary g'.grid) ∧
      (∀ n, ∃ g', smooth n g = some g' ∧ Binary g'.grid) ∧
      (10 ≤ g.width → 10 ≤ g.height → ∀ n, ∃ g', addObstacles rs n g = some g' ∧
        Binary g'.grid)) ∧
    (∀ g : CaveGenerator R, Reachable rs g →
      Binary g.grid ∧ ∀ x y, get g x y = some 0 ∨ get g x y = some 1) := by
  refine ⟨?_, ?_, ?_⟩
  · intro w h seed hw hh
    have c : ¬ (w < 0 ∨ h < 0) := by omega
    have e : construct rs w h seed =
        some ⟨w, h, List.replicate h.toNat (List.replicate w.toNat 0), rs.seed seed⟩ := by
      simp only [construct, c, if_false]
    refine ⟨_, e, ?_⟩
    intro row hrow v hv
    rw [List.eq_of_mem_replicate hrow] at hv
    exact List.eq_of_mem_replicate hv
  · intro g hwf hb
    refine ⟨?_, ?_, ?_⟩
    · intro p
      obtain ⟨g', hrun, _, hb'⟩ := initializeGrid_binary rs p g hwf
      exact ⟨g', hrun, hb'⟩
    · intro n
      obtain ⟨g', hrun, _, hb'⟩ := smooth_binary n g hwf hb
      exact ⟨g', hrun, hb'⟩
    · intro hw10 hh10 n
      obtain ⟨g', hrun, _, hb'⟩ := addObstacles_binary rs hrs n g hwf hw10 hh10 hb
      exact ⟨g', hrun, hb'⟩
  · intro g hr
    obtain ⟨hwf, hb⟩ := reachable_binary rs hrs g hr
    exact ⟨hb, get_binary g hwf hb⟩

theorem cells_stay_binary_witness :
    (∀ (w h : Int) (seed : Nat), 0 ≤ w → 0 ≤ h → ∃ g, construct lowSource w h seed = some g ∧
      ∀ row ∈ g.grid, ∀ v ∈ row, v = 0) ∧
    (∀ g : CaveGenerator Nat, g.WF → Binary g.grid →
      (∀ p, ∃ g', initializeGrid lowSource p g = some g' ∧ Binary g'.grid) ∧
      (∀ n, ∃ g', smooth n g = some g' ∧ Binary g'.grid) ∧
      (10 ≤ g.width → 10 ≤ g.height → ∀ n, ∃ g', addObstacles lowSource n g = some g' ∧
        Binary g'.grid)) ∧
    (∀ g : CaveGenerator Nat, Reachable lowSource g →
      Binary g.grid ∧ ∀ x y, get g x y = some 0 ∨ get g x y = some 1) :=
  cells_stay_binary lowSource lowSource_intInRange

/-! ## Neighbour counting as a sum -/

/-- A loop that adds `f i` to an accumulator computes the sum of `f` over its range. -/
theorem forRange_sum (lo hi : Int) (f : Int → Int) (body : Int → Int → Option Int)
    (hbody : ∀ i c, lo ≤ i → i < hi → body i c = some (c + f i)) (c0 : Int) :
    forRange lo hi body c0 = some (c0 + (Finset.Ico lo hi).sum f) := by
  obtain ⟨c, hrun, hI⟩ := forRange_inv lo hi body
    (fun i c => c = c0 + (Finset.Ico lo i).sum f) c0 (by simp)
    (fun j t h0 h1 ht => by
      refine ⟨t + f j, hbody j t h0 h1, ?_⟩
      have e : Finset.Ico lo (j + 1) = insert j (Finset.Ico lo j) := by
        ext k; simp only [Finset.mem_Ico, Finset.mem_insert]; omega
      have hn : j ∉ Finset.Ico lo j := by simp
      have ht' : t = c0 + (Finset.Ico lo j).sum f := ht
      show t + f j = c0 + (Finset.Ico lo (j + 1)).sum f
      rw [e, Finset.sum_insert hn, ht']; ring)
  have e : Finset.Ico lo (max lo hi) = Finset.Ico lo hi := by
    ext k; simp only [Finset.mem_Ico]; omega
  rw [hrun, hI, e]

theorem countCell_term {R : Type} (g : CaveGenerator R) (hwf : g.WF) (x y dx dy c : Int) :
    countCell g x y dx dy c = some (c + neighborTerm g x y dx dy) := by
  unfold countCell neighborTerm
  by_cases h0 : dx = 0 ∧ dy = 0
  · simp only [h0, and_self, if_true, add_zero]
  · by_cases h1 : x + dx < 0 ∨ x + dx ≥ g.width ∨ y + dy < 0 ∨ y + dy ≥ g.height
    · simp only [h0, h1, if_false, if_true, get, Option.getD_some]
    · obtain ⟨v, hv⟩ := readCell_some hwf (x := x + dx) (y := y + dy)
        (by omega) (by omega) (by omega) (by omega)
      simp only [h0, h1, if_false, get, hv, Option.getD_some]

/-- On a well-formed grid `countNeighborWalls` returns the double sum of the contributions,
rows of offsets outside, columns inside, as the two loops run. -/
theorem countNeighborWalls_eq_sum {R : Type} (g : CaveGenerator R) (hwf : g.WF)
    (x y r : Int) :
    countNeighborWalls g x y r = some ((Finset.Ico (-r) (r + 1)).sum fun dy =>
      (Finset.Ico (-r) (r + 1)).sum fun dx => neighborTerm g x y dx dy) := by
  unfold countNeighborWalls
  rw [forRange_sum (-r) (r + 1)
    (fun dy => (Finset.Ico (-r) (r + 1)).sum fun dx => neighborTerm g x y dx dy) _
    (fun dy c _ _ => forRange_sum (-r) (r + 1) (fun dx => neighborTerm g x y dx dy) _
      (fun dx c2 _ _ => countCell_term g hwf x y dx dy c2) c) 0]
  rw [zero_add]

theorem neighborSumSpec_eq_sum {R : Type} (g : CaveGenerator R) (x y r : Int) :
    neighborSumSpec g x y r = (Finset.Ico (-r) (r + 1)).sum fun dy =>
      (Finset.Ico (-r) (r + 1)).sum fun dx => neighborTerm g x y dx dy := by
  have e : Finset.Icc (-r) r = Finset.Ico (-r) (r + 1) := by
    ext k; simp only [Finset.mem_Icc, Finset.mem_Ico]; omega
  unfold neighborSumSpec neighborOffsets
  rw [Finset.sum_filter, Finset.sum_product_right, e]
  apply Finset.sum_congr rfl
  intro dy _
  apply Finset.sum_congr rfl
  intro dx _
  unfold neighborTerm
  by_cases h0 : dx = 0 ∧ dy = 0
  · have h1 : ¬ ((dx, dy) ≠ ((0 : Int), (0 : Int))) := by
      simp only [ne_eq, Prod.mk.injEq, not_not]; exact h0
    rw [if_neg h1, if_pos h0]
  · have h1 : (dx, dy) ≠ ((0 : Int), (0 : Int)) := by
      simp only [ne_eq, Prod.mk.injEq]; exact h0
    rw [if_pos h1, if_neg h0]

/-! ## Neighbour counting with 32-bit arithmetic -/

theorem checkInt_of_range {v : Int} (h0 : -2147483648 ≤ v) (h1 : v ≤ 2147483647) :
    checkInt v = some v := by
  have c : -2147483648 ≤ v ∧ v ≤ 2147483647 := ⟨h0, h1⟩
  simp only [checkInt, c, and_self, if_true]

/-- A checked loop whose body agrees with the unchecked one on the states of an invariant,
and whose counter stays in range, is the unchecked loop. -/
theorem forLoopInt_eq_forLoop {σ : Type} (bodyI body : Int → σ → Option σ)
    (I : Int → σ → Prop) :
    ∀ (n : Nat) (i : Int) (s : σ), I i s →
      (∀ j t, i ≤ j → j < i + n → I j t →
        bodyI j t = body j t ∧ -2147483648 ≤ j + 1 ∧ j + 1 ≤ 2147483647 ∧
        ∀ t', body j t = some t' → I (j + 1) t') →
      forLoopInt bodyI n i s = forLoop body n i s := by
  intro n
  induction n with
  | zero => intro i s _ _; rfl
  | succ n ih =>
    intro i s h0 hstep
    obtain ⟨hb, hlo, hhi, hnext⟩ := hstep i s (le_refl i) (by push_cast; omega) h0
    simp only [forLoopInt, forLoop, hb]
    cases hbody : body i s with
    | none => rfl
    | some t =>
      simp only [checkInt_of_range hlo hhi]
      exact ih (i + 1) t (hnext t hbody) (fun j u h1 h2 hu =>
        hstep j u (by omega) (by push_cast; omega) hu)

theorem neighborTerm_binary {R : Type} (g : CaveGenerator R) (hwf : g.WF)
    (hb : Binary g.grid) (x y dx dy : Int) :
    0 ≤ neighborTerm g x y dx dy ∧ neighborTerm g x y dx dy ≤ 1 := by
  unfold neighborTerm
  by_cases h0 : dx = 0 ∧ dy = 0
  · simp only [h0, and_self, if_true]; omega
  · simp only [h0, if_false]
    rcases get_binary g hwf hb (x + dx) (y + dy) with h | h <;> rw [h] <;>
      simp only [Option.getD_some] <;> omega

/-- One offset: the checked body is the unchecked one when the two index sums and the
updated count stay in range. -/
theorem countCellInt_eq {R : Type} (g : CaveGenerator R) (hwf : g.WF) (hb : Binary g.grid)
    (x y dx dy c : Int) (hx0 : -2147483648 ≤ x + dx) (hx1 : x + dx ≤ 2147483647)
    (hy0 : -2147483648 ≤ y + dy) (hy1 : y + dy ≤ 2147483647) (hc0 : 0 ≤ c)
    (hc1 : c + 1 ≤ 2147483647) :
    countCellInt g x y dx dy c = countCell g x y dx dy c := by
  unfold countCellInt countCell
  by_cases h0 : dx = 0 ∧ dy = 0
  · simp only [h0, and_self, if_true]
  · simp only [h0, if_false, checkInt_of_range hx0 hx1, checkInt_of_range hy0 hy1]
    by_cases h1 : x + dx < 0 ∨ x + dx ≥ g.width ∨ y + dy < 0 ∨ y + dy ≥ g.height
    · simp only [h1, if_true]
      exact checkInt_of_range (by omega) hc1
    · obtain ⟨v, hv⟩ := readCell_some hwf (x := x + dx) (y := y + dy)
        (by omega) (by omega) (by omega) (by omega)
      have hv01 := (binary_iff_cells _).1 hb _ _ v hv
      simp only [h1, if_false, hv]
      exact checkInt_of_range (by omega) (by omega)

/-- One row of offsets: bounds of the unchecked inner loop. -/
theorem countRow_bounds {R : Type} (g : CaveGenerator R) (hwf : g.WF) (hb : Binary g.grid)
    (x y r dy c1 : Int) (hr0 : 0 ≤ r) :
    ∃ c', forRange (-r) (r + 1) (fun dx c2 => countCell g x y dx dy c2) c1 = some c' ∧
      c1 ≤ c' ∧ c' ≤ c1 + (2 * r + 1) := by
  obtain ⟨c', hrun, h1, h2⟩ := forRange_inv (-r) (r + 1)
    (fun dx c2 => countCell g x y dx dy c2) (fun i c => c1 ≤ c ∧ c ≤ c1 + (i + r)) c1
    ⟨le_refl _, by omega⟩
    (fun j t _ _ ht => by
      have hterm := neighborTerm_binary g hwf hb x y j dy
      exact ⟨_, countCell_term g hwf x y j dy t, by omega, by omega⟩)
  exact ⟨c', hrun, h1, by omega⟩

/-- One row of offsets: the checked inner loop is the unchecked one. -/
theorem countRowInt_eq {R : Type} (g : CaveGenerator R) (hwf : g.WF) (hb : Binary g.grid)
    (x y r dy c1 : Int) (hr0 : 0 ≤ r) (hr1 : r ≤ 23169)
    (hx0 : -2147483648 ≤ x - r) (hx1 : x + r ≤ 2147483647)
    (hy0 : -2147483648 ≤ y + dy) (hy1 : y + dy ≤ 2147483647)
    (hc0 : 0 ≤ c1) (hc1 : c1 + (2 * r + 1) ≤ 2147483647) :
    forRangeInt (-r) r (fun dx c2 => countCellInt g x y dx dy c2) c1 =
      forRange (-r) (r + 1) (fun dx c2 => countCell g x y dx dy c2) c1 := by
  unfold forRangeInt forRange
  apply forLoopInt_eq_forLoop _ _ (fun i c => 0 ≤ c ∧ c ≤ c1 + (i + r)) _ _ _
    ⟨hc0, by omega⟩
  intro j t hj0 hj1 ht
  have hj1' : j ≤ r := by omega
  have hterm := neighborTerm_binary g hwf hb x y j dy
  refine ⟨countCellInt_eq g hwf hb x y j dy t (by omega) (by omega) hy0 hy1 ht.1 (by omega),
    by omega, by omega, ?_⟩
  intro t' ht'
  rw [countCell_term g hwf x y j dy t] at ht'
  have e := Option.some.inj ht'
  constructor <;> omega

/-- With a binary grid, `0 ≤ r ≤ 23169` and `x ± r`, `y ± r` in the 32-bit range no
operation of `countNeighborWalls` overflows: the checked method is the unchecked one. -/
theorem countNeighborWallsInt_eq {R : Type} (g : CaveGenerator R) (hwf : g.WF)
    (hb : Binary g.grid) (x y r : Int) (hr0 : 0 ≤ r) (hr1 : r ≤ 23169)
    (hx0 : -2147483648 ≤ x - r) (hx1 : x + r ≤ 2147483647)
    (hy0 : -2147483648 ≤ y - r) (hy1 : y + r ≤ 2147483647) :
    countNeighborWallsInt g x y r = countNeighborWalls g x y r := by
  unfold countNeighborWallsInt countNeighborWalls
  simp only [checkInt_of_range (v := -r) (by omega) (by omega)]
  unfold forRangeInt forRange
  apply forLoopInt_eq_forLoop _ _ (fun dy c => 0 ≤ c ∧ c ≤ (dy + r) * (2 * r + 1)) _ _ _
    ⟨le_refl _, by nlinarith⟩
  intro dy c hd0 hd1 hc
  have hd1' : dy ≤ r := by omega
  have hmul : (dy + r + 1) * (2 * r + 1) ≤ 46339 * 46339 :=
    mul_le_mul (by omega) (by omega) (by omega) (by omega)
  have hexp : (dy + r + 1) * (2 * r + 1) = (dy + r) * (2 * r + 1) + (2 * r + 1) := by ring
  refine ⟨countRowInt_eq g hwf hb x y r dy c hr0 hr1 hx0 hx1 (by omega) (by omega) hc.1
    (by omega), by omega, by omega, ?_⟩
  intro c' hc'
  obtain ⟨c'', hrun, hlo, hhi⟩ := countRow_bounds g hwf hb x y r dy c hr0
  have e : c' = c'' := Option.some.inj (hc'.symm.trans hrun)
  have hexp' : (dy + 1 + r) * (2 * r + 1) = (dy + r) * (2 * r + 1) + (2 * r + 1) := by ring
  constructor <;> omega

/-- C17, as the code behaves: on the 5 by 5 example grid the claim gives
`countNeighborWalls(2147483647, 2, 1)` the value 8, the sum of `get` over the eight offsets
(all outside the grid), but the method computes `x + dx` with `dx = 1` at `x = INT_MAX`, a
signed overflow: it has no defined result. -/
theorem count_overflows_at_int_max :
    neighborSumSpec exampleCave 2147483647 2 1 = 8 ∧
    countNeighborWallsInt exampleCave 2147483647 2 1 = none := by
  decide

/-- C17 amended: the neighbour counter agrees with the sentinel accessor where its `int`
arithmetic does not overflow.  On a well-formed binary grid, for every range
`0 ≤ r ≤ 23169` and all `x`, `y` with `x - r`, `x + r`, `y - r`, `y + r` in the 32-bit
range, `countNeighborWalls(x, y, r)` returns the sum of `get(x+dx, y+dy)` over all offsets
with `|dx| ≤ r`, `|dy| ≤ r` and `(dx, dy) ≠ (0, 0)`, and no operation of the method
overflows; `get` returns a value at every position, the value `1` at every position outside
the grid; the centre is not among the offsets; and for `r = 1` the result lies in
`[0, 8]`. -/
theorem countNeighborWalls_refines_get {R : Type} (g : CaveGenerator R) (hwf : g.WF)
    (hb : Binary g.grid) (x y r : Int) (hr0 : 0 ≤ r) (hr1 : r ≤ 23169)
    (hx0 : -2147483648 ≤ x - r) (hx1 : x + r ≤ 2147483647)
    (hy0 : -2147483648 ≤ y - r) (hy1 : y + r ≤ 2147483647) :
    countNeighborWallsInt g x y r = some (neighborSumSpec g x y r) ∧
    countNeighborWalls g x y r = countNeighborWallsInt g x y r ∧
    (∀ dx dy, get g (x + dx) (y + dy) ≠ none) ∧
    (∀ dx dy, (x + dx < 0 ∨ x + dx ≥ g.width ∨ y + dy < 0 ∨ y + dy ≥ g.height) →
      get g (x + dx) (y + dy) = some 1) ∧
    ((0 : Int), (0 : Int)) ∉ neighborOffsets r ∧
    (r = 1 → 0 ≤ neighborSumSpec g x y r ∧ neighborSumSpec g x y r ≤ 8) := by
  have heq := countNeighborWallsInt_eq g hwf hb x y r hr0 hr1 hx0 hx1 hy0 hy1
  refine ⟨?_, heq.symm, ?_, ?_, ?_, ?_⟩
  · rw [heq, countNeighborWalls_eq_sum g hwf, neighborSumSpec_eq_sum]
  · intro dx dy
    by_cases hout : x + dx < 0 ∨ x + dx ≥ g.width ∨ y + dy < 0 ∨ y + dy ≥ g.height
    · simp only [get, hout, if_true]; exact Option.some_ne_none 1
    · obtain ⟨v, hv⟩ := readCell_some hwf (x := x + dx) (y := y + dy)
        (by omega) (by omega) (by omega) (by omega)
      simp only [get, hout, if_false, hv]; exact Option.some_ne_none v
  · intro dx dy hout
    simp only [get, hout, if_true]
  · simp [neighborOffsets]
  · intro h1
    subst h1
    constructor
    · apply Finset.sum_nonneg
      intro d _
      rcases get_binary g hwf hb (x + d.1) (y + d.2) with h | h <;> rw [h] <;> simp
    · have hcard : (neighborOffsets 1).card = 8 := by decide
      have hle := Finset.sum_le_card_nsmul (neighborOffsets 1)
        (fun d => (get g (x + d.1) (y + d.2)).getD 0) 1 (by
          intro d _
          show (get g (x + d.1) (y + d.2)).getD 0 ≤ 1
          rcases get_binary g hwf hb (x + d.1) (y + d.2) with h | h <;> rw [h] <;> simp)
      rw [hcard] at hle
      simpa [neighborSumSpec] using hle

theorem countNeighborWalls_refines_get_witness :
    countNeighborWallsInt exampleCave 0 4 2 = some (neighborSumSpec exampleCave 0 4 2) ∧
    countNeighborWalls exampleCave 0 4 2 = countNeighborWallsInt exampleCave 0 4 2 ∧
    (∀ dx dy, get exampleCave (0 + dx) (4 + dy) ≠ none) ∧
    (∀ dx dy, (0 + dx < 0 ∨ 0 + dx ≥ exampleCave.width ∨ 4 + dy < 0 ∨
        4 + dy ≥ exampleCave.height) → get exampleCave (0 + dx) (4 + dy) = some 1) ∧
    ((0 : Int), (0 : Int)) ∉ neighborOffsets 2 ∧
    ((2 : Int) = 1 → 0 ≤ neighborSumSpec exampleCave 0 4 2 ∧
      neighborSumSpec exampleCave 0 4 2 ≤ 8) :=
  countNeighborWalls_refines_get exampleCave (by decide) (by decide) 0 4 2 (by decide)
    (by decide) (by decide) (by decide) (by decide) (by decide)

/-! ## The zero-probability scenario -/

/-- With wall probability 0 and draws in `[0, 1)`, `initialize` leaves the border Wall and
the interior Open. -/
theorem initializeGrid_zero {R : Type} (rs : RandomSource R) (hrs : rs.RealInUnit)
    (g : CaveGenerator R) (hwf : g.WF) :
    ∃ g1, initializeGrid rs 0 g = some g1 ∧ g1.width = g.width ∧ g1.height = g.height ∧
      g1.WF ∧ g1.rng = rs.skipReal^[(g.height - 2).toNat * (g.width - 2).toNat] g.rng ∧
      ∀ x y, 0 ≤ x → x < g.width → 0 ≤ y → y < g.height →
        readCell g1.grid x y = some (borderCell g.width g.height x y) := by
  obtain ⟨g1, hrun, hw, hh, hwf1, hr, hc⟩ := initializeGrid_spec rs 0 g hwf
  refine ⟨g1, hrun, hw, hh, hwf1, hr, ?_⟩
  intro x y hx0 hx1 hy0 hy1
  rw [hc x y hx0 hx1 hy0 hy1]
  have hd := hrs (rs.skipReal^[interiorIndex g.width x y] g.rng)
  have hlt : ¬ rs.realDraw g.rng (interiorIndex g.width x y) < 0 := by
    unfold RandomSource.realDraw; exact not_lt.2 hd.1
  simp only [initTarget, borderCell, hlt, if_false]

/-- On a well-formed grid `countNeighborWalls(x, y, 1)` is the sum of the eight neighbours
as `get` returns them. -/
theorem countNeighborWalls_one {R : Type} (g : CaveGenerator R) (hwf : g.WF) (x y : Int) :
    countNeighborWalls g x y 1 = some (
      (get g (x + -1) (y + -1)).getD 0 + (get g (x + 0) (y + -1)).getD 0 +
      (get g (x + 1) (y + -1)).getD 0 + (get g (x + -1) (y + 0)).getD 0 +
      (get g (x + 1) (y + 0)).getD 0 + (get g (x + -1) (y + 1)).getD 0 +
      (get g (x + 0) (y + 1)).getD 0 + (get g (x + 1) (y + 1)).getD 0) := by
  rw [countNeighborWalls_eq_sum g hwf]
  have e : Finset.Ico (-1 : Int) (1 + 1) = {-1, 0, 1} := by decide
  rw [e]
  simp [Finset.sum_insert, neighborTerm]
  ring

/-- In-grid value of `get`. -/
theorem get_of_readCell {R : Type} (g : CaveGenerator R) {x y v : Int}
    (hx0 : 0 ≤ x) (hx1 : x < g.width) (hy0 : 0 ≤ y) (hy1 : y < g.height)
    (hv : readCell g.grid x y = some v) : (get g x y).getD 0 = v := by
  have hin : ¬ (x < 0 ∨ x ≥ g.width ∨ y < 0 ∨ y ≥ g.height) := by omega
  simp only [get, hin, if_false, hv, Option.getD_some]

/-- Neighbour count of an interior cell of a grid with Wall border and Open interior. -/
theorem count_border_grid {R : Type} (g : CaveGenerator R) (hwf : g.WF)
    (hcells : ∀ x y, 0 ≤ x → x < g.width → 0 ≤ y → y < g.height →
      readCell g.grid x y = some (borderCell g.width g.height x y))
    (x y : Int) (hx0 : 1 ≤ x) (hx1 : x ≤ g.width - 2) (hy0 : 1 ≤ y) (hy1 : y ≤ g.height - 2) :
    countNeighborWalls g x y 1 = some (
      borderCell g.width g.height (x + -1) (y + -1) + borderCell g.width g.height (x + 0) (y + -1) +
      borderCell g.width g.height (x + 1) (y + -1) + borderCell g.width g.height (x + -1) (y + 0) +
      borderCell g.width g.height (x + 1) (y + 0) + borderCell g.width g.height (x + -1) (y + 1) +
      borderCell g.width g.height (x + 0) (y + 1) + borderCell g.width g.height (x + 1) (y + 1)) := by
  have hg : ∀ dx dy : Int, -1 ≤ dx → dx ≤ 1 → -1 ≤ dy → dy ≤ 1 →
      (get g (x + dx) (y + dy)).getD 0 = borderCell g.width g.height (x + dx) (y + dy) := by
    intro dx dy h1 h2 h3 h4
    exact get_of_readCell g (by omega) (by omega) (by omega) (by omega)
      (hcells (x + dx) (y + dy) (by omega) (by omega) (by omega) (by omega))
  rw [countNeighborWalls_one g hwf, hg (-1) (-1), hg 0 (-1), hg 1 (-1), hg (-1) 0, hg 1 0,
    hg (-1) 1, hg 0 1, hg 1 1] <;> decide

/-- Arithmetic of the eight border tests around an interior cell of a grid of at least 4 by
4: five at an interior corner, at most three elsewhere. -/
theorem border_neighbours (w h x y : Int) (hw : 4 ≤ w) (hh : 4 ≤ h) (hx0 : 1 ≤ x)
    (hx1 : x ≤ w - 2) (hy0 : 1 ≤ y) (hy1 : y ≤ h - 2) :
    ((x = 1 ∨ x = w - 2) ∧ (y = 1 ∨ y = h - 2) →
      borderCell w h (x + -1) (y + -1) + borderCell w h (x + 0) (y + -1) +
      borderCell w h (x + 1) (y + -1) + borderCell w h (x + -1) (y + 0) +
      borderCell w h (x + 1) (y + 0) + borderCell w h (x + -1) (y + 1) +
      borderCell w h (x + 0) (y + 1) + borderCell w h (x + 1) (y + 1) = 5) ∧
    (¬ ((x = 1 ∨ x = w - 2) ∧ (y = 1 ∨ y = h - 2)) →
      borderCell w h (x + -1) (y + -1) + borderCell w h (x + 0) (y + -1) +
      borderCell w h (x + 1) (y + -1) + borderCell w h (x + -1) (y + 0) +
      borderCell w h (x + 1) (y + 0) + borderCell w h (x + -1) (y + 1) +
      borderCell w h (x + 0) (y + 1) + borderCell w h (x + 1) (y + 1) ≤ 3) := by
  have c1 : (x + -1 = 0 ∨ x + -1 = w - 1 ∨ y + -1 = 0 ∨ y + -1 = h - 1) ↔ (x = 1 ∨ y = 1) := by
    omega
  have c2 : (x + 0 = 0 ∨ x + 0 = w - 1 ∨ y + -1 = 0 ∨ y + -1 = h - 1) ↔ y = 1 := by omega
  have c3 : (x + 1 = 0 ∨ x + 1 = w - 1 ∨ y + -1 = 0 ∨ y + -1 = h - 1) ↔
      (x = w - 2 ∨ y = 1) := by omega
  have c4 : (x + -1 = 0 ∨ x + -1 = w - 1 ∨ y + 0 = 0 ∨ y + 0 = h - 1) ↔ x = 1 := by omega
  have c5 : (x + 1 = 0 ∨ x + 1 = w - 1 ∨ y + 0 = 0 ∨ y + 0 = h - 1) ↔ x = w - 2 := by omega
  have c6 : (x + -1 = 0 ∨ x + -1 = w - 1 ∨ y + 1 = 0 ∨ y + 1 = h - 1) ↔
      (x = 1 ∨ y = h - 2) := by omega
  have c7 : (x + 0 = 0 ∨ x + 0 = w - 1 ∨ y + 1 = 0 ∨ y + 1 = h - 1) ↔ y = h - 2 := by omega
  have c8 : (x + 1 = 0 ∨ x + 1 = w - 1 ∨ y + 1 = 0 ∨ y + 1 = h - 1) ↔
      (x = w - 2 ∨ y = h - 2) := by omega
  unfold borderCell
  simp only [c1, c2, c3, c4, c5, c6, c7, c8]
  by_cases hL : x = 1 <;> by_cases hR : x = w - 2 <;> by_cases hT : y = 1 <;>
    by_cases hB : y = h - 2 <;>
    simp only [hL, hR, hT, hB, true_or, or_true, or_self, and_self, and_true, true_and,
      and_false, false_and, if_true, if_false, not_true, not_false_eq_true, false_or, or_false,
      true_implies, false_implies, and_true, implies_true] <;>
    omega

theorem goldenGrid_shape (w h : Int) (hw : 0 ≤ w) (hh : 0 ≤ h) :
    Shape w h (goldenGrid w h) := by
  refine ⟨hw, hh, by simp [goldenGrid], ?_⟩
  intro row hrow
  simp only [goldenGrid, List.mem_map] at hrow
  obtain ⟨j, _, rfl⟩ := hrow
  simp

theorem goldenGrid_cell (w h x y : Int) (hx0 : 0 ≤ x) (hx1 : x < w) (hy0 : 0 ≤ y)
    (hy1 : y < h) : readCell (goldenGrid w h) x y = some (goldenCell w h x y) := by
  have c : ¬ (x < 0 ∨ y < 0) := by omega
  have hy : y.toNat < h.toNat := by omega
  have hx : x.toNat < w.toNat := by omega
  have ex : ((x.toNat : Nat) : Int) = x := Int.toNat_of_nonneg hx0
  have ey : ((y.toNat : Nat) : Int) = y := Int.toNat_of_nonneg hy0
  simp only [readCell, c, if_false, goldenGrid, List.getElem?_map, List.getElem?_range hy,
    Option.map_some', List.getElem?_range hx, ex, ey]

/-- The zero-probability scenario on a grid of at least 4 by 4: after `initialize(0.0)` every
interior corner has neighbour count 5 and every other interior cell at most 3, and one
generation leaves exactly the expected grid. -/
theorem zero_scenario_spec {R : Type} (rs : RandomSource R) (hrs : rs.RealInUnit)
    (g : CaveGenerator R) (hwf : g.WF) (hw : 4 ≤ g.width) (hh : 4 ≤ g.height) :
    ∃ g1 g2, initializeGrid rs 0 g = some g1 ∧ smooth 1 g1 = some g2 ∧
      g1.width = g.width ∧ g1.height = g.height ∧ g1.WF ∧
      g2.width = g.width ∧ g2.height = g.height ∧ g2.WF ∧
      (∀ x y, 0 ≤ x → x < g.width → 0 ≤ y → y < g.height →
        readCell g1.grid x y = some (borderCell g.width g.height x y)) ∧
      (∀ x y, 1 ≤ x → x ≤ g.width - 2 → 1 ≤ y → y ≤ g.height - 2 →
        ((x = 1 ∨ x = g.width - 2) ∧ (y = 1 ∨ y = g.height - 2) →
          countNeighborWalls g1 x y 1 = some 5) ∧
        (¬ ((x = 1 ∨ x = g.width - 2) ∧ (y = 1 ∨ y = g.height - 2)) →
          ∃ n, countNeighborWalls g1 x y 1 = some n ∧ n ≤ 3)) ∧
      (∀ x y, 0 ≤ x → x < g.width → 0 ≤ y → y < g.height →
        readCell g2.grid x y = some (goldenCell g.width g.height x y)) := by
  obtain ⟨g1, h1, hw1, hh1, hwf1, _, hc1⟩ := initializeGrid_zero rs hrs g hwf
  obtain ⟨g2, h2, hw2, hh2, _, hwf2, hin, hout⟩ := smoothPass_spec g1 hwf1
  have hc1' : ∀ x y, 0 ≤ x → x < g1.width → 0 ≤ y → y < g1.height →
      readCell g1.grid x y = some (borderCell g1.width g1.height x y) := by
    intro x y hx0 hx1 hy0 hy1
    rw [hw1, hh1]; exact hc1 x y hx0 (by omega) hy0 (by omega)
  have hcount : ∀ x y, 1 ≤ x → x ≤ g.width - 2 → 1 ≤ y → y ≤ g.height - 2 →
      ((x = 1 ∨ x = g.width - 2) ∧ (y = 1 ∨ y = g.height - 2) →
        countNeighborWalls g1 x y 1 = some 5) ∧
      (¬ ((x = 1 ∨ x = g.width - 2) ∧ (y = 1 ∨ y = g.height - 2)) →
        ∃ n, countNeighborWalls g1 x y 1 = some n ∧ n ≤ 3) := by
    intro x y hx0 hx1 hy0 hy1
    have hcnt := count_border_grid g1 hwf1 hc1' x y hx0 (by omega) hy0 (by omega)
    rw [hw1, hh1] at hcnt
    obtain ⟨hcorner, hrest⟩ := border_neighbours g.width g.height x y hw hh hx0 hx1 hy0 hy1
    constructor
    · intro hc; rw [hcnt, hcorner hc]
    · intro hc; exact ⟨_, hcnt, hrest hc⟩
  refine ⟨g1, g2, h1, by rw [smooth_one]; exact h2, hw1, hh1, hwf1, by omega, by omega, hwf2,
    hc1, hcount, ?_⟩
  intro x y hx0 hx1 hy0 hy1
  by_cases hi : 1 ≤ x ∧ x < g1.width - 1 ∧ 1 ≤ y ∧ y < g1.height - 1
  · rw [hin x y hi.1 hi.2.1 hi.2.2.1 hi.2.2.2]
    obtain ⟨hcorner, hrest⟩ := hcount x y (by omega) (by omega) (by omega) (by omega)
    have hb : ¬ (x = 0 ∨ x = g.width - 1 ∨ y = 0 ∨ y = g.height - 1) := by omega
    by_cases hc : (x = 1 ∨ x = g.width - 2) ∧ (y = 1 ∨ y = g.height - 2)
    · simp [smoothTarget, hcorner hc, goldenCell, hc]
    · obtain ⟨n, hn, hn3⟩ := hrest hc
      have h5 : ¬ n ≥ 5 := by omega
      simp only [smoothTarget, hn, h5, hn3, if_false, if_true, goldenCell, hb, hc, or_self]
  · rw [hout x y hi, hc1 x y hx0 hx1 hy0 hy1]
    have hb : x = 0 ∨ x = g.width - 1 ∨ y = 0 ∨ y = g.height - 1 := by omega
    simp only [borderCell, goldenCell, hb, true_or, if_true]

/-- C15: zero wall probability.  For every non-negative width and height, every seed and
every source whose real draws lie in `[0, 1)`, construction, `initialize(0.0)` and one
smoothing iteration succeed; after `initialize` every interior cell is Open, and after the
iteration an interior cell is Wall only if its neighbour count on the initialized grid was
at least 5. -/
theorem zero_probability_smoothing {R : Type} (rs : RandomSource R) (hrs : rs.RealInUnit)
    (w h : Int) (seed : Nat) (hw : 0 ≤ w) (hh : 0 ≤ h) :
    ∃ g0 g1 g2, construct rs w h seed = some g0 ∧ initializeGrid rs 0 g0 = some g1 ∧
      smooth 1 g1 = some g2 ∧
      (∀ x y, 1 ≤ x → x ≤ w - 2 → 1 ≤ y → y ≤ h - 2 → readCell g1.grid x y = some 0) ∧
      (∀ x y, 1 ≤ x → x ≤ w - 2 → 1 ≤ y → y ≤ h - 2 → readCell g2.grid x y = some 1 →
        ∃ n, countNeighborWalls g1 x y 1 = some n ∧ n ≥ 5) := by
  obtain ⟨g0, h0, hw0, hh0, _, hwf0⟩ := construct_spec rs w h seed hw hh
  obtain ⟨g1, h1, hw1, hh1, hwf1, _, hc1⟩ := initializeGrid_zero rs hrs g0 hwf0
  obtain ⟨g2, h2, _, _, _, _, hin, _⟩ := smoothPass_spec g1 hwf1
  have hopen : ∀ x y, 1 ≤ x → x ≤ w - 2 → 1 ≤ y → y ≤ h - 2 →
      readCell g1.grid x y = some 0 := by
    intro x y hx0 hx1 hy0 hy1
    rw [hc1 x y (by omega) (by omega) (by omega) (by omega)]
    have hb : ¬ (x = 0 ∨ x = g0.width - 1 ∨ y = 0 ∨ y = g0.height - 1) := by omega
    simp only [borderCell, hb, if_false]
  refine ⟨g0, g1, g2, h0, h1, by rw [smooth_one]; exact h2, hopen, ?_⟩
  intro x y hx0 hx1 hy0 hy1 hwall
  obtain ⟨n, hn⟩ := countNeighborWalls_total g1 hwf1 x y 1
  refine ⟨n, hn, ?_⟩
  rw [hin x y hx0 (by omega) hy0 (by omega)] at hwall
  by_contra h5
  by_cases h3 : n ≤ 3
  · simp only [smoothTarget, hn, h5, h3, if_false, if_true] at hwall
    exact absurd (Option.some.inj hwall) (by decide)
  · simp only [smoothTarget, hn, h5, h3, if_false, hopen x y hx0 hx1 hy0 hy1] at hwall
    exact absurd (Option.some.inj hwall) (by decide)

theorem zero_probability_smoothing_witness :
    ∃ g0 g1 g2, construct lowSource 10 10 1 = some g0 ∧ initializeGrid lowSource 0 g0 = some g1 ∧
      smooth 1 g1 = some g2 ∧
      (∀ x y, 1 ≤ x → x ≤ 10 - 2 → 1 ≤ y → y ≤ 10 - 2 → readCell g1.grid x y = some 0) ∧
      (∀ x y, 1 ≤ x → x ≤ 10 - 2 → 1 ≤ y → y ≤ 10 - 2 → readCell g2.grid x y = some 1 →
        ∃ n, countNeighborWalls g1 x y 1 = some n ∧ n ≥ 5) :=
  zero_probability_smoothing lowSource lowSource_realInUnit 10 10 1 (by decide) (by decide)

/-- C16, as the code behaves: in the scenario `width = 10`, `height = 10`,
`wallProbability = 0.0` (seed 1, draws all 0), on the grid produced by `initialize` the
neighbour count of the interior corner `(1, 1)` is 5, not 3. -/
theorem corner_count_is_not_three :
    ((construct lowSource 10 10 1).bind (initializeGrid lowSource 0)).bind
        (fun g1 => countNeighborWalls g1 1 1 1) = some 5 ∧
    ((construct lowSource 10 10 1).bind (initializeGrid lowSource 0)).bind
        (fun g1 => countNeighborWalls g1 1 1 1) ≠ some 3 := by
  decide

/-- C16 amended: in the scenario `width = 10`, `height = 10`, `wallProbability = 0.0`, for
every seed and every source whose real draws lie in `[0, 1)`, on the grid produced by
`initialize` each interior corner cell `(1,1)`, `(8,1)`, `(1,8)`, `(8,8)` has exactly five
border neighbours, all Wall, and three Open neighbours: `countNeighborWalls(x, y, 1) = 5`. -/
theorem corner_count_is_five {R : Type} (rs : RandomSource R) (hrs : rs.RealInUnit)
    (seed : Nat) :
    ∃ g0 g1, construct rs 10 10 seed = some g0 ∧ initializeGrid rs 0 g0 = some g1 ∧
      countNeighborWalls g1 1 1 1 = some 5 ∧ countNeighborWalls g1 8 1 1 = some 5 ∧
      countNeighborWalls g1 1 8 1 = some 5 ∧ countNeighborWalls g1 8 8 1 = some 5 ∧
      (∀ x y, 0 ≤ x → x < 10 → 0 ≤ y → y < 10 →
        readCell g1.grid x y = some (if x = 0 ∨ x = 9 ∨ y = 0 ∨ y = 9 then 1 else 0)) := by
  obtain ⟨g0, h0, hw0, hh0, _, hwf0⟩ := construct_spec rs 10 10 seed (by decide) (by decide)
  obtain ⟨g1, _, h1, _, _, _, _, _, _, _, hc1, hcount, _⟩ := zero_scenario_spec rs hrs g0 hwf0
    (by omega) (by omega)
  refine ⟨g0, g1, h0, h1, ?_, ?_, ?_, ?_, ?_⟩
  · exact (hcount 1 1 (by omega) (by omega) (by omega) (by omega)).1 (by omega)
  · exact (hcount 8 1 (by omega) (by omega) (by omega) (by omega)).1 (by omega)
  · exact (hcount 1 8 (by omega) (by omega) (by omega) (by omega)).1 (by omega)
  · exact (hcount 8 8 (by omega) (by omega) (by omega) (by omega)).1 (by omega)
  · intro x y hx0 hx1 hy0 hy1
    rw [hc1 x y hx0 (by omega) hy0 (by omega), hw0, hh0]
    rfl

theorem corner_count_is_five_witness :
    ∃ g0 g1, construct lowSource 10 10 1 = some g0 ∧ initializeGrid lowSource 0 g0 = some g1 ∧
      countNeighborWalls g1 1 1 1 = some 5 ∧ countNeighborWalls g1 8 1 1 = some 5 ∧
      countNeighborWalls g1 1 8 1 = some 5 ∧ countNeighborWalls g1 8 8 1 = some 5 ∧
      (∀ x y, 0 ≤ x → x < 10 → 0 ≤ y → y < 10 →
        readCell g1.grid x y = some (if x = 0 ∨ x = 9 ∨ y = 0 ∨ y = 9 then 1 else 0)) :=
  corner_count_is_five lowSource lowSource_realInUnit 1

/-- C19, as the code behaves: on the 4 by 4 grid (seed 1, draws all 0) `initialize(0.0)` and
`smooth(1)` succeed and leave every cell Wall, but `addObstacles(0)` has no defined result:
it constructs `distX(5, width-5)` with `5 > -1` before its loop. -/
theorem obstacles_undefined_below_ten :
    ((construct lowSource 4 4 1).bind (initializeGrid lowSource 0)).bind (smooth 1) =
      some ⟨4, 4, [[1, 1, 1, 1], [1, 1, 1, 1], [1, 1, 1, 1], [1, 1, 1, 1]], 5⟩ ∧
    addObstacles lowSource 0
      ⟨4, 4, [[1, 1, 1, 1], [1, 1, 1, 1], [1, 1, 1, 1], [1, 1, 1, 1]], 5⟩ = none := by
  decide

/-- C19 amended: golden result of the zero-probability scenario.  For every width and height
of at least 4, every seed and every source whose real draws lie in `[0, 1)`, construction,
`initialize(0.0)` and `smooth(1)` succeed; in the resulting grid a cell is Wall exactly when
it is a border cell or one of the four interior corners `(1,1)`, `(width-2,1)`,
`(1,height-2)`, `(width-2,height-2)`, and Open otherwise; each of these corners has
neighbour count 5 on the initialized grid; the grid is the expected grid.  A following
`addObstacles(0)` is defined exactly when width and height are at least 10, and then leaves
the object unchanged; below that it has no defined result.  For width 10 and height 10 the
grid has 40 Wall cells. -/
theorem zero_probability_golden {R : Type} (rs : RandomSource R) (hrs : rs.RealInUnit)
    (w h : Int) (seed : Nat) (hw : 4 ≤ w) (hh : 4 ≤ h) :
    ∃ g0 g1 g2, construct rs w h seed = some g0 ∧ initializeGrid rs 0 g0 = some g1 ∧
      smooth 1 g1 = some g2 ∧
      (∀ x y, 0 ≤ x → x < w → 0 ≤ y → y < h →
        (readCell g2.grid x y = some 1 ↔
          ((x = 0 ∨ x = w - 1 ∨ y = 0 ∨ y = h - 1) ∨
            ((x = 1 ∨ x = w - 2) ∧ (y = 1 ∨ y = h - 2)))) ∧
        (readCell g2.grid x y = some 1 ∨ readCell g2.grid x y = some 0)) ∧
      (∀ x y, (x = 1 ∨ x = w - 2) → (y = 1 ∨ y = h - 2) →
        countNeighborWalls g1 x y 1 = some 5) ∧
      g2.grid = goldenGrid w h ∧
      (10 ≤ w → 10 ≤ h → addObstacles rs 0 g2 = some g2) ∧
      (w < 10 ∨ h < 10 → addObstacles rs 0 g2 = none) ∧
      (w = 10 → h = 10 → wallCount g2.grid = 40) := by
  obtain ⟨g0, h0, hw0, hh0, _, hwf0⟩ := construct_spec rs w h seed (by omega) (by omega)
  obtain ⟨g1, g2, h1, h2, _, _, _, hw2, hh2, hwf2, _, hcount, hgold⟩ :=
    zero_scenario_spec rs hrs g0 hwf0 (by omega) (by omega)
  simp only [hw0, hh0] at hcount hgold hw2 hh2
  have hgrid : g2.grid = goldenGrid w h := by
    have hs : Shape w h g2.grid := by rw [← hw2, ← hh2]; exact hwf2
    apply shape_ext hs (goldenGrid_shape w h (by omega) (by omega))
    intro x y hx0 hx1 hy0 hy1
    rw [hgold x y hx0 hx1 hy0 hy1, goldenGrid_cell w h x y hx0 hx1 hy0 hy1]
  refine ⟨g0, g1, g2, h0, h1, h2, ?_, ?_, hgrid, ?_, ?_, ?_⟩
  · intro x y hx0 hx1 hy0 hy1
    rw [hgold x y hx0 hx1 hy0 hy1]
    unfold goldenCell
    by_cases hc : (x = 0 ∨ x = w - 1 ∨ y = 0 ∨ y = h - 1) ∨
        ((x = 1 ∨ x = w - 2) ∧ (y = 1 ∨ y = h - 2))
    · simp only [hc, if_true, true_or, and_self]
    · simp only [hc, if_false, or_true, iff_false, and_true]
      exact fun hne => absurd (Option.some.inj hne) (by decide)
  · intro x y hx hy
    exact (hcount x y (by omega) (by omega) (by omega) (by omega)).1 ⟨hx, hy⟩
  · intro hw10 hh10
    rw [addObstacles_eq_loop rs 0 g2 (by omega) (by omega)]
    rfl
  · intro hsmall
    exact addObstacles_small rs 0 g2 (by omega)
  · intro ew eh
    rw [hgrid, ew, eh]
    decide

theorem zero_probability_golden_witness :
    ∃ g0 g1 g2, construct lowSource 10 10 1 = some g0 ∧
      initializeGrid lowSource 0 g0 = some g1 ∧
      smooth 1 g1 = some g2 ∧
      (∀ x y, 0 ≤ x → x < 10 → 0 ≤ y → y < 10 →
        (readCell g2.grid x y = some 1 ↔
          ((x = 0 ∨ x = 10 - 1 ∨ y = 0 ∨ y = 10 - 1) ∨
            ((x = 1 ∨ x = 10 - 2) ∧ (y = 1 ∨ y = 10 - 2)))) ∧
        (readCell g2.grid x y = some 1 ∨ readCell g2.grid x y = some 0)) ∧
      (∀ x y, (x = 1 ∨ x = 10 - 2) → (y = 1 ∨ y = 10 - 2) →
        countNeighborWalls g1 x y 1 = some 5) ∧
      g2.grid = goldenGrid 10 10 ∧
      ((10 : Int) ≤ 10 → (10 : Int) ≤ 10 → addObstacles lowSource 0 g2 = some g2) ∧
      ((10 : Int) < 10 ∨ (10 : Int) < 10 → addObstacles lowSource 0 g2 = none) ∧
      ((10 : Int) = 10 → (10 : Int) = 10 → wallCount g2.grid = 40) :=
  zero_probability_golden lowSource lowSource_realInUnit 10 10 1 (by decide) (by decide)

/-! ## Wall count as a number of positions -/

theorem count_one_eq_sum : ∀ row : List Int,
    row.count 1 = (Finset.range row.length).sum (fun i => if row[i]? = some 1 then 1 else 0)
  | [] => by simp
  | a :: t => by
    rw [List.count_cons, List.length_cons, Finset.sum_range_succ', count_one_eq_sum t]
    simp only [List.getElem?_cons_succ, List.getElem?_cons_zero, Option.some.injEq, beq_iff_eq]

/-- The wall count of a storage with rows of length `n` is the number of positions whose
cell is `1`. -/
theorem wallCount_eq_sum (n : Nat) : ∀ grid : List (List Int),
    (∀ row ∈ grid, row.length = n) →
    wallCount grid = (Finset.range grid.length).sum (fun j =>
      (Finset.range n).sum (fun i => if readCell grid (i : Int) (j : Int) = some 1 then 1 else 0))
  | [], _ => by simp [wallCount]
  | r :: t, hrows => by
    have ih := wallCount_eq_sum n t (fun row hrow => hrows row (List.mem_cons_of_mem _ hrow))
    have hr : r.length = n := hrows r (List.mem_cons_self _ _)
    have e : wallCount (r :: t) = wallCount t + r.count 1 := by
      simp only [wallCount, List.map_cons, List.sum_cons]; omega
    rw [e, List.length_cons, Finset.sum_range_succ', ih, count_one_eq_sum r, hr]
    simp only [readCell_natCast, List.getElem?_cons_succ, List.getElem?_cons_zero]

/-- Writing `1` into the cells of a set `P` of positions of the grid and nothing else raises
the wall count by the number of cells of `P` that were not Wall. -/
theorem wallCount_after_writes {w h : Int} {g g' : List (List Int)} (hs : Shape w h g)
    (hs' : Shape w h g') (P : Finset (Int × Int))
    (hP : ∀ p ∈ P, 0 ≤ p.1 ∧ p.1 < w ∧ 0 ≤ p.2 ∧ p.2 < h)
    (hin : ∀ p ∈ P, readCell g' p.1 p.2 = some 1)
    (hout : ∀ x y, (x, y) ∉ P → readCell g' x y = readCell g x y) :
    wallCount g' =
      wallCount g + (P.filter (fun p => readCell g p.1 p.2 ≠ some 1)).card := by
  have hpt : ∀ i j : Nat,
      (if readCell g' (i : Int) (j : Int) = some 1 then 1 else 0) =
        (if readCell g (i : Int) (j : Int) = some 1 then 1 else 0) +
        (if ((i : Int), (j : Int)) ∈ P.filter (fun p => readCell g p.1 p.2 ≠ some 1)
          then 1 else 0) := by
    intro i j
    by_cases hp : ((i : Int), (j : Int)) ∈ P
    · have h1 := hin _ hp
      by_cases hg : readCell g (i : Int) (j : Int) = some 1
      · have hq : ((i : Int), (j : Int)) ∉
            P.filter (fun p => readCell g p.1 p.2 ≠ some 1) := by
          simp only [Finset.mem_filter, not_and, not_not]; exact fun _ => hg
        rw [if_pos h1, if_pos hg, if_neg hq]
      · have hq : ((i : Int), (j : Int)) ∈
            P.filter (fun p => readCell g p.1 p.2 ≠ some 1) := by
          simp only [Finset.mem_filter]; exact ⟨hp, hg⟩
        rw [if_pos h1, if_neg hg, if_pos hq]
    · have hq : ((i : Int), (j : Int)) ∉
          P.filter (fun p => readCell g p.1 p.2 ≠ some 1) := by
        simp only [Finset.mem_filter, not_and]; exact fun hc => absurd hc hp
      rw [hout _ _ hp, if_neg hq, add_zero]
  have hcard : (Finset.range h.toNat).sum (fun j => (Finset.range w.toNat).sum (fun i =>
      if ((i : Int), (j : Int)) ∈ P.filter (fun p => readCell g p.1 p.2 ≠ some 1)
        then 1 else 0)) = (P.filter (fun p => readCell g p.1 p.2 ≠ some 1)).card := by
    rw [← Finset.sum_product' (Finset.range h.toNat) (Finset.range w.toNat)
      (fun j i => if ((i : Int), (j : Int)) ∈ P.filter (fun p => readCell g p.1 p.2 ≠ some 1)
        then 1 else 0), ← Finset.card_filter]
    rw [← Finset.card_image_of_injective _ (f := fun q : Nat × Nat => ((q.2 : Int), (q.1 : Int)))
      (by
        intro a b hab
        simp only [Prod.mk.injEq, Nat.cast_inj] at hab
        exact Prod.ext hab.2 hab.1)]
    congr 1
    ext p
    simp only [Finset.mem_image, Finset.mem_filter, Finset.mem_product, Finset.mem_range,
      Prod.exists]
    constructor
    · rintro ⟨a, b, ⟨_, hq⟩, rfl⟩
      exact hq
    · intro hq
      have hb := hP p hq.1
      refine ⟨p.2.toNat, p.1.toNat, ⟨⟨by omega, by omega⟩, ?_⟩, ?_⟩
      · rw [Int.toNat_of_nonneg hb.1, Int.toNat_of_nonneg hb.2.2.1]
        exact ⟨hq.1, hq.2⟩
      · rw [Int.toNat_of_nonneg hb.1, Int.toNat_of_nonneg hb.2.2.1]
  rw [wallCount_eq_sum w.toNat g' hs'.2.2.2, wallCount_eq_sum w.toNat g hs.2.2.2, hs'.2.2.1,
    hs.2.2.1, ← hcard, ← Finset.sum_add_distrib]
  apply Finset.sum_congr rfl
  intro j _
  rw [← Finset.sum_add_distrib]
  apply Finset.sum_congr rfl
  intro i _
  exact hpt i j

/-! ## Cells written by one obstacle -/

theorem mem_stampedCells (cx cy size x y : Int) (hsize : 0 ≤ size) :
    (x, y) ∈ stampedCells cx cy size ↔ inDisc size (x - cx) (y - cy) := by
  unfold stampedCells discOffsets
  simp only [Finset.mem_image, Finset.mem_filter, Finset.mem_product, Finset.mem_Icc,
    Prod.exists, Prod.mk.injEq]
  constructor
  · rintro ⟨dx, dy, ⟨_, hd⟩, hx, hy⟩
    have ex : x - cx = dx := by omega
    have ey : y - cy = dy := by omega
    unfold inDisc
    rw [ex, ey]; exact hd
  · intro hd
    have hb := inDisc_bounds hsize hd
    exact ⟨x - cx, y - cy, ⟨⟨⟨hb.1, hb.2.1⟩, hb.2.2.1, hb.2.2.2⟩, hd⟩, by omega, by omega⟩

theorem stampedCells_card (cx cy size : Int) (hsize : size = 1 ∨ size = 2 ∨ size = 3) :
    (stampedCells cx cy size).card = if size = 1 then 5 else if size = 2 then 13 else 29 := by
  have hinj : Function.Injective (fun d : Int × Int => (cx + d.1, cy + d.2)) := by
    intro a b hab
    simp only [Prod.mk.injEq] at hab
    exact Prod.ext (by omega) (by omega)
  unfold stampedCells
  rw [Finset.card_image_of_injective _ hinj]
  rcases hsize with h | h | h <;> subst h <;> decide

/-- C20: obstacle indexing is safe and stays off the border.  On a well-formed grid, for a
draw with `cx` in `[5, width-5]`, `cy` in `[5, height-5]` (so width and height are at least
10) and `size` in `{1, 2, 3}`: the centre read `grid[cy][cx]` succeeds; every offset of the
two loops lands on `2 ≤ cx+dx ≤ width-2`, `2 ≤ cy+dy ≤ height-2`, so the in-bounds guard is
always true and the loop body is exactly "write when the disc test holds"; the disc has 5,
13 or 29 positions for size 1, 2 or 3; and when the centre is Open the stamp succeeds, sets
the cell of each of these positions to Wall, keeps every other cell and every border cell,
and raises the wall count by the number of these positions that were not Wall before. -/
theorem obstacle_indexing_safe {R : Type} (g : CaveGenerator R) (hwf : g.WF)
    (cx cy size : Int) (hcx0 : 5 ≤ cx) (hcx1 : cx ≤ g.width - 5) (hcy0 : 5 ≤ cy)
    (hcy1 : cy ≤ g.height - 5) (hsize : size = 1 ∨ size = 2 ∨ size = 3) :
    (∃ c, readCell g.grid cx cy = some c) ∧
    (∀ dx dy, -size ≤ dx → dx ≤ size → -size ≤ dy → dy ≤ size →
      2 ≤ cx + dx ∧ cx + dx ≤ g.width - 2 ∧ 2 ≤ cy + dy ∧ cy + dy ≤ g.height - 2 ∧
      ∀ g1 : CaveGenerator R, g1.width = g.width → g1.height = g.height →
        stampCell cx cy size dx dy g1 =
          if dx * dx + dy * dy ≤ size * size then g1.write (cx + dx) (cy + dy) 1
          else some g1) ∧
    (stampedCells cx cy size).card = (if size = 1 then 5 else if size = 2 then 13 else 29) ∧
    (readCell g.grid cx cy = some 0 →
      ∃ g', placeObstacle cx cy size g = some g' ∧
        (∀ p ∈ stampedCells cx cy size,
          2 ≤ p.1 ∧ p.1 ≤ g.width - 2 ∧ 2 ≤ p.2 ∧ p.2 ≤ g.height - 2 ∧
            readCell g'.grid p.1 p.2 = some 1) ∧
        (∀ x y, (x, y) ∉ stampedCells cx cy size →
          readCell g'.grid x y = readCell g.grid x y) ∧
        (∀ x y, (x = 0 ∨ x = g.width - 1 ∨ y = 0 ∨ y = g.height - 1) →
          readCell g'.grid x y = readCell g.grid x y) ∧
        wallCount g'.grid = wallCount g.grid +
          ((stampedCells cx cy size).filter
            (fun p => readCell g.grid p.1 p.2 ≠ some 1)).card) := by
  have hs0 : 0 ≤ size := by omega
  refine ⟨readCell_some hwf (by omega) (by omega) (by omega) (by omega), ?_,
    stampedCells_card cx cy size hsize, ?_⟩
  · intro dx dy hdx0 hdx1 hdy0 hdy1
    refine ⟨by omega, by omega, by omega, by omega, ?_⟩
    intro g1 hw1 hh1
    have hguard : cx + dx ≥ 0 ∧ cx + dx < g1.width ∧ cy + dy ≥ 0 ∧ cy + dy < g1.height := by
      omega
    simp only [stampCell, hguard, and_self, if_true]
  · intro hopen
    obtain ⟨c, g', hc, hrun, hw', hh', _, hwf', _, hstamp⟩ := placeObstacle_spec g hwf cx cy
      size (by omega) (by omega) (by omega) (by omega) hs0
    have h0 : c = 0 := Option.some.inj (hc.symm.trans hopen)
    obtain ⟨hin, hout⟩ := hstamp h0
    have hbox : ∀ p ∈ stampedCells cx cy size,
        2 ≤ p.1 ∧ p.1 ≤ g.width - 2 ∧ 2 ≤ p.2 ∧ p.2 ≤ g.height - 2 := by
      intro p hp
      have hd := (mem_stampedCells cx cy size p.1 p.2 hs0).1 hp
      have hb := inDisc_bounds hs0 hd
      omega
    have hset : ∀ p ∈ stampedCells cx cy size, readCell g'.grid p.1 p.2 = some 1 := by
      intro p hp
      have hb := hbox p hp
      exact hin p.1 p.2 (by omega) (by omega) (by omega) (by omega)
        ((mem_stampedCells cx cy size p.1 p.2 hs0).1 hp)
    have hkeep : ∀ x y, (x, y) ∉ stampedCells cx cy size →
        readCell g'.grid x y = readCell g.grid x y := by
      intro x y hp
      exact hout x y (fun hd => hp ((mem_stampedCells cx cy size x y hs0).2 hd))
    refine ⟨g', hrun, fun p hp => ?_, hkeep, ?_, ?_⟩
    · have hb := hbox p hp
      exact ⟨hb.1, hb.2.1, hb.2.2.1, hb.2.2.2, hset p hp⟩
    · intro x y hborder
      apply hkeep
      intro hp
      have hb := hbox (x, y) hp
      simp only at hb
      omega
    · have hs' : Shape g.width g.height g'.grid := by rw [← hw', ← hh']; exact hwf'
      exact wallCount_after_writes hwf hs' (stampedCells cx cy size)
        (fun p hp => by have hb := hbox p hp; omega) hset hkeep

theorem obstacle_indexing_safe_witness :
    (∃ c, readCell blankCave.grid 5 5 = some c) ∧
    (∀ dx dy, -3 ≤ dx → dx ≤ 3 → -3 ≤ dy → dy ≤ 3 →
      2 ≤ 5 + dx ∧ 5 + dx ≤ blankCave.width - 2 ∧ 2 ≤ 5 + dy ∧ 5 + dy ≤ blankCave.height - 2 ∧
      ∀ g1 : CaveGenerator Nat, g1.width = blankCave.width → g1.height = blankCave.height →
        stampCell 5 5 3 dx dy g1 =
          if dx * dx + dy * dy ≤ 3 * 3 then g1.write (5 + dx) (5 + dy) 1
          else some g1) ∧
    (stampedCells 5 5 3).card = (if (3 : Int) = 1 then 5 else if (3 : Int) = 2 then 13 else 29) ∧
    (readCell blankCave.grid 5 5 = some 0 →
      ∃ g', placeObstacle 5 5 3 blankCave = some g' ∧
        (∀ p ∈ stampedCells 5 5 3,
          2 ≤ p.1 ∧ p.1 ≤ blankCave.width - 2 ∧ 2 ≤ p.2 ∧ p.2 ≤ blankCave.height - 2 ∧
            readCell g'.grid p.1 p.2 = some 1) ∧
        (∀ x y, (x, y) ∉ stampedCells 5 5 3 →
          readCell g'.grid x y = readCell blankCave.grid x y) ∧
        (∀ x y, (x = 0 ∨ x = blankCave.width - 1 ∨ y = 0 ∨ y = blankCave.height - 1) →
          readCell g'.grid x y = readCell blankCave.grid x y) ∧
        wallCount g'.grid = wallCount blankCave.grid +
          ((stampedCells 5 5 3).filter
            (fun p => readCell blankCave.grid p.1 p.2 ≠ some 1)).card) :=
  obstacle_indexing_safe blankCave (by decide) 5 5 3 (by decide) (by decide) (by decide)
    (by decide) (by decide)

end Cave
